import Mathlib

/-!
# Stereo IIR filter bare-metal driver (`software/baremetal/main.c`)

A shallow embedding of the driver program: the Q1.15 coefficient conversion,
the two register-level control functions, the sample packing used for the DMA
buffers, and `main` as a function from the answers of the DMA driver to the
trace of hardware operations it performs and its exit status.

Conventions.
* Machine integers are `Int`/`Nat` with explicit reductions modulo `2^16` and
  `2^32`.
* A `float` argument is taken as the exact number it denotes.  The only
  floating-point operation of the program is the product with `32768.0f`, a
  power of two, which binary32 performs exactly (no rounding, and no overflow
  for the magnitudes considered), so the product is the exact product.  The
  codec is stated over any ordered field with a floor function, which covers
  both the rationals (where it is executable) and the reals.
* Calls into the board support package (`Xil_Out32`, the cache maintenance
  calls, the `XAxiDma_*` driver, `xil_printf`, `memset`) and CPU accesses to
  the DMA buffers are recorded as events of a trace, in program order.
-/

namespace IIR

/-! ## Hardware address definitions (`main.c`, lines 19-33) -/

def IIR_BASE_ADDR : Nat := 0xA0010000
def DMA_BASE_ADDR : Nat := 0xA0000000
def DMA_DEV_ID : Nat := 0

def REG_CTRL_OFFSET : Nat := 0x00
def REG_A0_OFFSET : Nat := 0x04
def REG_A1_OFFSET : Nat := 0x08
def REG_B1_OFFSET : Nat := 0x0C

def MEM_BASE_ADDR : Nat := 0x10000000
def RX_BUFFER_BASE : Nat := MEM_BASE_ADDR + 0x00100000
def TX_BUFFER_BASE : Nat := MEM_BASE_ADDR + 0x00200000
def TEST_LENGTH : Nat := 128

/-- The value of `sizeof(u32)`. -/
def sizeof_u32 : Nat := 4

/-! ## Machine-integer conversions -/

/-- Conversion of an integer value to `int16_t`: the low 16 bits, read as a
two's-complement number. -/
def castInt16 (n : Int) : Int := (n + 32768) % 65536 - 32768

/-- Conversion of an integer value to `u32`: reduction modulo `2^32`.  This is
what happens to an `int16_t` argument passed to the `u32 Value` parameter of
`Xil_Out32` (integer promotion keeps the sign, the conversion to unsigned
wraps). -/
def toU32 (n : Int) : Nat := (n % 4294967296).toNat

/-- Conversion of a floating value to an integer discards the fractional
part. -/
def truncToInt {α : Type} [LinearOrderedField α] [FloorRing α] (v : α) : Int :=
  if 0 ≤ v then ⌊v⌋ else ⌈v⌉

/-- The cast `(int16_t)(v)` of a floating value.  When the truncated value fits
in `int16_t` this is the C conversion.  When it does not fit, C leaves the
conversion undefined; the definition then follows the compiled code, which
converts to a 32-bit integer register and keeps the low half-word
(sign-extended).  That reading is meaningful for `|v| < 2^31` only, and no
result below relies on it beyond that magnitude. -/
def floatToInt16 {α : Type} [LinearOrderedField α] [FloorRing α] (v : α) : Int :=
  castInt16 (truncToInt v)

/-! ## Trace of hardware operations -/

/-- Transfer directions of the AXI DMA driver. -/
inductive Direction
  | XAXIDMA_DMA_TO_DEVICE
  | XAXIDMA_DEVICE_TO_DMA
  deriving DecidableEq, Repr

/-- The lines `main.c` prints, with the values they report. -/
inductive Msg
  | banner
  | errConfigNotFound
  | errInitFailed
  | coefficientsUpdated (a0 a1 b1 : Int)
  | filterConfigured
  | errRxTransfer
  | errTxTransfer
  | transferComplete
  | sample (i : Nat) (left right : Int)
  deriving DecidableEq, Repr

/-- One externally visible operation.  Driver calls carry the value the driver
returned; `store p i v` is the CPU write `p[i] = v` to a `u32` array at address
`p`, `load p i v` the CPU read of `p[i]` that yields `v`. -/
inductive Event
  | Xil_ICacheEnable
  | Xil_DCacheEnable
  | xil_printf (m : Msg)
  | XAxiDma_LookupConfig (deviceId : Nat) (found : Bool)
  | XAxiDma_CfgInitialize (status : Int)
  | XAxiDma_IntrDisable (dir : Direction)
  | memset (addr byte len : Nat)
  | store (ptr idx val : Nat)
  | load (ptr idx val : Nat)
  | Xil_DCacheFlushRange (addr len : Nat)
  | Xil_DCacheInvalidateRange (addr len : Nat)
  | Xil_Out32 (addr val : Nat)
  | XAxiDma_SimpleTransfer (addr len : Nat) (dir : Direction) (status : Int)
  | XAxiDma_Busy (dir : Direction) (busy : Bool)
  deriving DecidableEq, Repr

/-! ## IIR control functions (`main.c`, lines 48-80) -/

/-- The function `IIR_Set_Coefficients(a0, a1, b1)`: the three conversions, the
three register writes and the line it prints. -/
def IIR_Set_Coefficients {α : Type} [LinearOrderedField α] [FloorRing α]
    (a0 a1 b1 : α) : List Event :=
  let a0_fixed := floatToInt16 (a0 * 32768)
  let a1_fixed := floatToInt16 (a1 * 32768)
  let b1_fixed := floatToInt16 (b1 * 32768)
  [ Event.Xil_Out32 (IIR_BASE_ADDR + REG_A0_OFFSET) (toU32 a0_fixed),
    Event.Xil_Out32 (IIR_BASE_ADDR + REG_A1_OFFSET) (toU32 a1_fixed),
    Event.Xil_Out32 (IIR_BASE_ADDR + REG_B1_OFFSET) (toU32 b1_fixed),
    Event.xil_printf (Msg.coefficientsUpdated a0_fixed a1_fixed b1_fixed) ]

/-- The function `IIR_Enable(enable, clear)`; the `u8` arguments are natural
numbers. -/
def IIR_Enable (enable clear : Nat) : List Event :=
  let val : Nat := 0
  let val := if enable ≠ 0 then val ||| 0x01 else val
  let val := if clear ≠ 0 then val ||| 0x02 else val
  [ Event.Xil_Out32 (IIR_BASE_ADDR + REG_CTRL_OFFSET) val ]

/-- Modelled from the spec: the `decode` direction of the fixed-point codec,
which `main.c` does not contain ("divide the 16-bit signed integer by 2^15"). -/
def decode {α : Type} [LinearOrderedField α] (n : Int) : α := (n : α) / 2 ^ 15

/-- The 16-bit two's-complement bit pattern of an integer. -/
def twosComplement16 (n : Int) : Nat := (n % 65536).toNat

/-! ## Sample packing (`main.c`, lines 125 and 181-182) -/

/-- The Tx word `(l << 16) | (r & 0xFFFF)` as stored in a `u32`.  The operands
are the 32-bit two's-complement patterns of the promoted `int` values; the
shift keeps the low 32 bits. -/
def packSample (l r : Int) : Nat :=
  ((toU32 l <<< 16) % 4294967296) ||| (toU32 r &&& 0xFFFF)

/-- The `left_out` computation `(int16_t)(w >> 16)` on a `u32` word. -/
def unpackLeft (w : Nat) : Int := castInt16 ((w >>> 16 : Nat) : Int)

/-- The `right_out` computation `(int16_t)(w & 0xFFFF)` on a `u32` word. -/
def unpackRight (w : Nat) : Int := castInt16 ((w &&& 0xFFFF : Nat) : Int)

/-! ## The DMA driver as seen by `main` -/

/-- Modelled from the spec: the status macros of the board support package
header `xstatus.h`, which is not part of the repository.  The spec only asks
that a failure is reported as a non-zero status; the header defines success as
`0` and failure as `1`. -/
def XST_SUCCESS : Int := 0

/-- Modelled from the spec: see `XST_SUCCESS`. -/
def XST_FAILURE : Int := 1

/-- Everything the environment decides during one run of `main`: the answers
of the DMA driver and the contents of the Rx buffer the CPU sees after the
transfer.  `busy i dir` is the answer of `XAxiDma_Busy` for `dir` when it is
asked during the `i`-th evaluation of the polling condition. -/
structure Driver where
  configFound : Bool
  initStatus : Int
  rxStatus : Int
  txStatus : Int
  busy : Nat → Direction → Bool
  rxWord : Nat → Nat

/-- The polling loop `while (Busy(DMA_TO_DEVICE) || Busy(DEVICE_TO_DMA)) {}`,
run for at most `fuel` evaluations of its condition, starting with evaluation
number `i`.  Returns the queries made and whether the loop was left.  The
second query is made only when the first one answers "not busy". -/
def pollLoop (busy : Nat → Direction → Bool) : Nat → Nat → List Event × Bool
  | 0, _ => ([], false)
  | fuel + 1, i =>
    if busy i Direction.XAXIDMA_DMA_TO_DEVICE then
      let r := pollLoop busy fuel (i + 1)
      (Event.XAxiDma_Busy Direction.XAXIDMA_DMA_TO_DEVICE true :: r.1, r.2)
    else if busy i Direction.XAXIDMA_DEVICE_TO_DMA then
      let r := pollLoop busy fuel (i + 1)
      (Event.XAxiDma_Busy Direction.XAXIDMA_DMA_TO_DEVICE false ::
        Event.XAxiDma_Busy Direction.XAXIDMA_DEVICE_TO_DMA true :: r.1, r.2)
    else
      ([ Event.XAxiDma_Busy Direction.XAXIDMA_DMA_TO_DEVICE false,
         Event.XAxiDma_Busy Direction.XAXIDMA_DEVICE_TO_DMA false ], true)

/-- The output inspection loop: for `i = 0 .. 9` both reads of
`RxBufferPtr[i]` and the line printed for the sample. -/
def inspectSamples (rxWord : Nat → Nat) : List Event :=
  (List.range 10).flatMap fun i =>
    let w := rxWord i % 4294967296
    [ Event.load RX_BUFFER_BASE i w,
      Event.load RX_BUFFER_BASE i w,
      Event.xil_printf (Msg.sample i (unpackLeft w) (unpackRight w)) ]

/-- The program `main`: the trace of operations and the exit status, `none`
when the polling loop is still running after `fuel` evaluations of its
condition. -/
def main (d : Driver) (fuel : Nat) : List Event × Option Int :=
  let t0 : List Event :=
    [ Event.Xil_ICacheEnable, Event.Xil_DCacheEnable, Event.xil_printf Msg.banner,
      Event.XAxiDma_LookupConfig DMA_DEV_ID d.configFound ]
  if d.configFound = false then
    (t0 ++ [Event.xil_printf Msg.errConfigNotFound], some XST_FAILURE)
  else
  let t1 := t0 ++ [Event.XAxiDma_CfgInitialize d.initStatus]
  if d.initStatus ≠ XST_SUCCESS then
    (t1 ++ [Event.xil_printf Msg.errInitFailed], some XST_FAILURE)
  else
  let t2 := t1 ++
    [ Event.XAxiDma_IntrDisable Direction.XAXIDMA_DEVICE_TO_DMA,
      Event.XAxiDma_IntrDisable Direction.XAXIDMA_DMA_TO_DEVICE,
      Event.memset RX_BUFFER_BASE 0 (TEST_LENGTH * sizeof_u32),
      Event.store TX_BUFFER_BASE 0 (packSample 10000 10000) ] ++
    (List.range (TEST_LENGTH - 1)).map (fun k => Event.store TX_BUFFER_BASE (k + 1) 0) ++
    [ Event.Xil_DCacheFlushRange TX_BUFFER_BASE (TEST_LENGTH * sizeof_u32),
      Event.Xil_DCacheFlushRange RX_BUFFER_BASE (TEST_LENGTH * sizeof_u32) ] ++
    IIR_Enable 1 1 ++
    IIR_Set_Coefficients (1 / 2 : ℚ) 0 (1 / 2) ++
    IIR_Enable 1 0 ++
    [ Event.xil_printf Msg.filterConfigured ]
  let t3 := t2 ++
    [ Event.XAxiDma_SimpleTransfer RX_BUFFER_BASE (TEST_LENGTH * sizeof_u32)
        Direction.XAXIDMA_DEVICE_TO_DMA d.rxStatus ]
  if d.rxStatus ≠ XST_SUCCESS then
    (t3 ++ [Event.xil_printf Msg.errRxTransfer], some XST_FAILURE)
  else
  let t4 := t3 ++
    [ Event.XAxiDma_SimpleTransfer TX_BUFFER_BASE (TEST_LENGTH * sizeof_u32)
        Direction.XAXIDMA_DMA_TO_DEVICE d.txStatus ]
  if d.txStatus ≠ XST_SUCCESS then
    (t4 ++ [Event.xil_printf Msg.errTxTransfer], some XST_FAILURE)
  else
  let p := pollLoop d.busy fuel 0
  if p.2 = false then
    (t4 ++ p.1, none)
  else
    (t4 ++ p.1 ++
      [ Event.Xil_DCacheInvalidateRange RX_BUFFER_BASE (TEST_LENGTH * sizeof_u32),
        Event.xil_printf Msg.transferComplete ] ++
      inspectSamples d.rxWord, some 0)

/-! ## Classification of trace events -/

/-- A receive-direction (`DEVICE_TO_DMA`) transfer start. -/
def isRxStart : Event → Bool
  | Event.XAxiDma_SimpleTransfer _ _ Direction.XAXIDMA_DEVICE_TO_DMA _ => true
  | _ => false

/-- A transmit-direction (`DMA_TO_DEVICE`) transfer start. -/
def isTxStart : Event → Bool
  | Event.XAxiDma_SimpleTransfer _ _ Direction.XAXIDMA_DMA_TO_DEVICE _ => true
  | _ => false

/-- A transfer start in either direction. -/
def isStart : Event → Bool
  | Event.XAxiDma_SimpleTransfer _ _ _ _ => true
  | _ => false

/-- A register write. -/
def isRegWrite : Event → Bool
  | Event.Xil_Out32 _ _ => true
  | _ => false

/-- Byte ranges `[a, a + m)` and `[b, b + n)` intersect. -/
def overlaps (a m b n : Nat) : Bool := decide (a < b + n) && decide (b < a + m)

/-- A CPU write that touches the Tx buffer. -/
def isTxWrite : Event → Bool
  | Event.store p i _ =>
    overlaps (p + sizeof_u32 * i) sizeof_u32 TX_BUFFER_BASE (TEST_LENGTH * sizeof_u32)
  | Event.memset a _ len => overlaps a len TX_BUFFER_BASE (TEST_LENGTH * sizeof_u32)
  | _ => false

/-- A CPU read of a word of the Rx buffer. -/
def isRxRead : Event → Bool
  | Event.load p i _ =>
    overlaps (p + sizeof_u32 * i) sizeof_u32 RX_BUFFER_BASE (TEST_LENGTH * sizeof_u32)
  | _ => false

/-- A cache flush whose range touches the Tx buffer. -/
def isTxFlush : Event → Bool
  | Event.Xil_DCacheFlushRange a len => overlaps a len TX_BUFFER_BASE (TEST_LENGTH * sizeof_u32)
  | _ => false

/-- A cache invalidate whose range touches the Rx buffer. -/
def isRxInvalidate : Event → Bool
  | Event.Xil_DCacheInvalidateRange a len =>
    overlaps a len RX_BUFFER_BASE (TEST_LENGTH * sizeof_u32)
  | _ => false

/-- A cache maintenance operation on an address range. -/
def isCacheRangeOp : Event → Bool
  | Event.Xil_DCacheFlushRange _ _ => true
  | Event.Xil_DCacheInvalidateRange _ _ => true
  | _ => false

/-- A report of an output sample. -/
def isSampleReport : Event → Bool
  | Event.xil_printf (Msg.sample _ _ _) => true
  | _ => false

/-- A busy query. -/
def isBusyQuery : Event → Bool
  | Event.XAxiDma_Busy _ _ => true
  | _ => false

/-! ## Named pieces of the trace of `main` -/

/-- The receive-direction start of `main` (lines 147-150), with the returned status. -/
def rxStart (status : Int) : Event :=
  Event.XAxiDma_SimpleTransfer RX_BUFFER_BASE (TEST_LENGTH * sizeof_u32)
    Direction.XAXIDMA_DEVICE_TO_DMA status

/-- The transmit-direction start of `main` (lines 157-160), with the returned status. -/
def txStart (status : Int) : Event :=
  Event.XAxiDma_SimpleTransfer TX_BUFFER_BASE (TEST_LENGTH * sizeof_u32)
    Direction.XAXIDMA_DMA_TO_DEVICE status

/-- The cache flush of the Tx buffer (line 131). -/
def flushTx : Event := Event.Xil_DCacheFlushRange TX_BUFFER_BASE (TEST_LENGTH * sizeof_u32)

/-- The cache invalidate of the Rx buffer (lines 173-174). -/
def invalidateRx : Event :=
  Event.Xil_DCacheInvalidateRange RX_BUFFER_BASE (TEST_LENGTH * sizeof_u32)

/-- The operations of lines 89-97, up to the configuration lookup and its answer. -/
def bootTrace (found : Bool) : List Event :=
  [ Event.Xil_ICacheEnable, Event.Xil_DCacheEnable, Event.xil_printf Msg.banner,
    Event.XAxiDma_LookupConfig 0 found ]

/-- The operations of lines 89-128 of a run whose lookup and initialization
succeed: everything before the flush of the Tx buffer. -/
def fillTrace : List Event :=
  bootTrace true ++
  [ Event.XAxiDma_CfgInitialize 0,
    Event.XAxiDma_IntrDisable Direction.XAXIDMA_DEVICE_TO_DMA,
    Event.XAxiDma_IntrDisable Direction.XAXIDMA_DMA_TO_DEVICE,
    Event.memset 0x10100000 0 512,
    Event.store 0x10200000 0 0x27102710 ] ++
  (List.range 127).map (fun k => Event.store 0x10200000 (k + 1) 0)

/-- The five filter register writes of lines 137-139, in program order. -/
def filterWrites : List Event :=
  [ Event.Xil_Out32 0xA0010000 3,
    Event.Xil_Out32 0xA0010004 16384,
    Event.Xil_Out32 0xA0010008 0,
    Event.Xil_Out32 0xA001000C 16384,
    Event.Xil_Out32 0xA0010000 1 ]

/-- The operations of lines 132-141: everything between the flush of the Tx
buffer and the first transfer start. -/
def configTrace : List Event :=
  [ Event.Xil_DCacheFlushRange 0x10100000 512,
    Event.Xil_Out32 0xA0010000 3,
    Event.Xil_Out32 0xA0010004 16384,
    Event.Xil_Out32 0xA0010008 0,
    Event.Xil_Out32 0xA001000C 16384,
    Event.xil_printf (Msg.coefficientsUpdated 16384 0 16384),
    Event.Xil_Out32 0xA0010000 1,
    Event.xil_printf Msg.filterConfigured ]

/-- The operations of a run whose lookup and initialization succeed, up to the
first transfer start. -/
def setupTrace : List Event := fillTrace ++ flushTx :: configTrace

/-- The operations after the polling loop (lines 173-186). -/
def inspectTrace (rxWord : Nat → Nat) : List Event :=
  invalidateRx :: Event.xil_printf Msg.transferComplete :: inspectSamples rxWord

/-- A driver that finds the device, accepts every request and is never busy;
every Rx word reads as `0x13880000`. -/
def idleDriver : Driver :=
  { configFound := true, initStatus := 0, rxStatus := 0, txStatus := 0,
    busy := fun _ _ => false, rxWord := fun _ => 0x13880000 }

/-- A driver whose configuration lookup returns null. -/
def absentDriver : Driver :=
  { configFound := false, initStatus := 0, rxStatus := 0, txStatus := 0,
    busy := fun _ _ => false, rxWord := fun _ => 0 }

/-! ## Codec lemmas -/

theorem castInt16_of_range (n : Int) (h1 : -32768 ≤ n) (h2 : n ≤ 32767) :
    castInt16 n = n := by
  unfold castInt16; omega

theorem castInt16_range (n : Int) : -32768 ≤ castInt16 n ∧ castInt16 n ≤ 32767 := by
  unfold castInt16; omega

theorem castInt16_congr (n : Int) : (castInt16 n - n) % 65536 = 0 := by
  unfold castInt16; omega

section Codec

variable {α : Type} [LinearOrderedField α] [FloorRing α]

theorem truncToInt_intCast (n : Int) : truncToInt (n : α) = n := by
  unfold truncToInt
  split <;> simp

theorem truncToInt_of_eq (n : Int) (v : α) (h : v = n) : truncToInt v = n := by
  rw [h, truncToInt_intCast]

/-- Within `[-32768, 32768)` truncation lands in the `int16_t` range. -/
theorem truncToInt_range (v : α) (h1 : -32768 ≤ v) (h2 : v < 32768) :
    -32768 ≤ truncToInt v ∧ truncToInt v ≤ 32767 := by
  unfold truncToInt
  split
  · rename_i h0
    constructor
    · have : (0 : Int) ≤ ⌊v⌋ := Int.floor_nonneg.mpr h0
      omega
    · have : ⌊v⌋ < 32768 := Int.floor_lt.mpr (by exact_mod_cast h2)
      omega
  · rename_i h0
    constructor
    · have : (-32769 : Int) < ⌈v⌉ := Int.lt_ceil.mpr (by push_cast; linarith)
      omega
    · have : ⌈v⌉ ≤ 0 := Int.ceil_le.mpr (by push_cast; linarith)
      omega

/-- The defining property of truncation toward zero: the result lies between
zero and the argument, less than one away from the argument. -/
theorem truncToInt_spec (v : α) :
    (0 ≤ v → 0 ≤ truncToInt v ∧ (truncToInt v : α) ≤ v ∧ v < truncToInt v + 1) ∧
    (v < 0 → truncToInt v ≤ 0 ∧ v ≤ (truncToInt v : α) ∧ (truncToInt v : α) - 1 < v) := by
  unfold truncToInt
  constructor
  · intro h0
    rw [if_pos h0]
    exact ⟨Int.floor_nonneg.mpr h0, Int.floor_le v, Int.lt_floor_add_one v⟩
  · intro h0
    rw [if_neg (not_le.mpr h0)]
    refine ⟨Int.ceil_le.mpr (by push_cast; exact le_of_lt h0), Int.le_ceil v, ?_⟩
    have := Int.ceil_lt_add_one v
    linarith

theorem floatToInt16_in_range (x : α) (h1 : -1 ≤ x) (h2 : x < 1) :
    floatToInt16 (x * 32768) = truncToInt (x * 32768) := by
  have hr := truncToInt_range (x * 32768) (by linarith) (by linarith)
  exact castInt16_of_range _ hr.1 hr.2

theorem floatToInt16_half : floatToInt16 ((1 / 2 : α) * 32768) = 16384 := by
  unfold floatToInt16
  rw [truncToInt_of_eq 16384 _ (by norm_num)]
  rfl

theorem floatToInt16_zero : floatToInt16 ((0 : α) * 32768) = 0 := by
  unfold floatToInt16
  rw [truncToInt_of_eq 0 _ (by norm_num)]
  rfl

theorem floatToInt16_neg_half : floatToInt16 ((-(1 / 2) : α) * 32768) = -16384 := by
  unfold floatToInt16
  rw [truncToInt_of_eq (-16384) _ (by norm_num)]
  rfl

end Codec

/-! ## Packing lemmas -/

theorem toU32_lt (n : Int) : toU32 n < 4294967296 := by
  unfold toU32; omega

theorem packSample_eq (l r : Int) :
    packSample l r = (toU32 l % 65536) * 65536 + toU32 r % 65536 := by
  unfold packSample
  have hr : toU32 r &&& 0xFFFF = toU32 r % 65536 :=
    Nat.and_pow_two_sub_one_eq_mod (toU32 r) 16
  have hl : (toU32 l <<< 16) % 4294967296 = 2 ^ 16 * (toU32 l % 65536) := by
    rw [Nat.shiftLeft_eq]; omega
  have hlt : toU32 r % 65536 < 2 ^ 16 := by omega
  rw [hr, hl, ← Nat.mul_add_lt_is_or hlt]
  omega

/-! ## Claims about the codec and the control functions -/

/-- C1: for every coefficient `x` with `-1 ≤ x < 1` the Q1.15 conversion
`(int16_t)(x * 32768.0f)` of `IIR_Set_Coefficients` is `x * 2^15` truncated
toward zero (the floor for `x ≥ 0`, the ceiling for `x < 0`; equivalently the
integer between zero and `x * 2^15` less than one away from it), it lies in
`[-32768, 32767]`, and the calibration values are `0.5 ↦ 16384`, `0 ↦ 0`,
`-0.5 ↦ -16384`. -/
theorem q15_truncates_in_range {α : Type} [LinearOrderedField α] [FloorRing α]
    (x : α) (hlo : -1 ≤ x) (hhi : x < 1) :
    floatToInt16 (x * 32768) = (if 0 ≤ x then ⌊x * 2 ^ 15⌋ else ⌈x * 2 ^ 15⌉) ∧
    (0 ≤ x → 0 ≤ floatToInt16 (x * 32768) ∧
      (floatToInt16 (x * 32768) : α) ≤ x * 2 ^ 15 ∧
      x * 2 ^ 15 < floatToInt16 (x * 32768) + 1) ∧
    (x < 0 → floatToInt16 (x * 32768) ≤ 0 ∧
      x * 2 ^ 15 ≤ (floatToInt16 (x * 32768) : α) ∧
      (floatToInt16 (x * 32768) : α) - 1 < x * 2 ^ 15) ∧
    (-32768 ≤ floatToInt16 (x * 32768) ∧ floatToInt16 (x * 32768) ≤ 32767) ∧
    floatToInt16 ((1 / 2 : α) * 32768) = 16384 ∧
    floatToInt16 ((0 : α) * 32768) = 0 ∧
    floatToInt16 ((-(1 / 2) : α) * 32768) = -16384 := by
  have h15 : (2 : α) ^ 15 = 32768 := by norm_num
  have he := floatToInt16_in_range x hlo hhi
  have hs := truncToInt_spec (x * 32768)
  rw [h15, he]
  refine ⟨?_, ?_, ?_, truncToInt_range _ (by linarith) (by linarith),
    floatToInt16_half, floatToInt16_zero, floatToInt16_neg_half⟩
  · unfold truncToInt
    by_cases h0 : 0 ≤ x
    · rw [if_pos h0, if_pos (by positivity)]
    · rw [if_neg h0, if_neg (by push_neg at h0 ⊢; linarith)]
  · intro h0
    exact hs.1 (by positivity)
  · intro h0
    exact hs.2 (by linarith)

/-- Witness for C1 at `x = -1/2`. -/
theorem q15_truncates_in_range_witness :
    (-1 : ℚ) ≤ -(1 / 2) ∧ (-(1 / 2) : ℚ) < 1 ∧
      floatToInt16 ((-(1 / 2) : ℚ) * 32768) = -16384 :=
  ⟨by norm_num, by norm_num,
    (q15_truncates_in_range (-(1 / 2) : ℚ) (by norm_num) (by norm_num)).2.2.2.2.2.2⟩

/-- C2: for every `x` in `[-1, 1 - 2^-15]`, decoding the Q1.15 value that
`IIR_Set_Coefficients` computes for `x` gives a number less than `2^-15` away
from `x` (so in particular within `2^-15` of it). -/
theorem decode_encode_within {α : Type} [LinearOrderedField α] [FloorRing α]
    (x : α) (hlo : -1 ≤ x) (hhi : x ≤ 1 - 1 / 2 ^ 15) :
    |decode (floatToInt16 (x * 32768)) - x| < 1 / 2 ^ 15 ∧
    |decode (floatToInt16 (x * 32768)) - x| ≤ 1 / 2 ^ 15 := by
  have h15 : (2 : α) ^ 15 = 32768 := by norm_num
  have hx1 : x < 1 := by
    have : (0 : α) < 1 / 2 ^ 15 := by positivity
    linarith
  have he := floatToInt16_in_range x hlo hx1
  have hs := truncToInt_spec (x * 32768)
  have key : |decode (floatToInt16 (x * 32768)) - x| < 1 / 2 ^ 15 := by
    rw [he, h15]
    unfold decode
    rw [h15, abs_lt]
    rcases le_or_lt 0 (x * 32768) with h0 | h0
    · obtain ⟨_, h1, h2⟩ := hs.1 h0
      constructor
      · rw [lt_sub_iff_add_lt, lt_div_iff₀ (by norm_num)]; linarith
      · rw [sub_lt_iff_lt_add, div_lt_iff₀ (by norm_num)]; linarith
    · obtain ⟨_, h1, h2⟩ := hs.2 h0
      constructor
      · rw [lt_sub_iff_add_lt, lt_div_iff₀ (by norm_num)]; linarith
      · rw [sub_lt_iff_lt_add, div_lt_iff₀ (by norm_num)]; linarith
  exact ⟨key, le_of_lt key⟩

/-- Witness for C2 at `x = 1/3`. -/
theorem decode_encode_within_witness :
    (-1 : ℚ) ≤ 1 / 3 ∧ (1 / 3 : ℚ) ≤ 1 - 1 / 2 ^ 15 ∧
      |(decode (floatToInt16 ((1 / 3 : ℚ) * 32768)) : ℚ) - 1 / 3| < 1 / 2 ^ 15 :=
  ⟨by norm_num, by norm_num,
    (decode_encode_within (1 / 3 : ℚ) (by norm_num) (by norm_num)).1⟩

/-- C3 (refuted as stated): out-of-range coefficients are neither rejected nor
saturated.  For `a0 = 1.0` and `a1 = -1.5` (with `b1 = 0`) the three register
writes still happen; `1.0` is encoded as `-32768` and not as the upper boundary
`32767`, `-1.5` is encoded as `16384` and not as the lower boundary `-32768`:
both are `x * 2^15` (`32768` and `-49152`) reduced modulo `2^16`. -/
theorem out_of_range_wraps :
    IIR_Set_Coefficients (1 : ℚ) (-(3 / 2)) 0 =
      [ Event.Xil_Out32 0xA0010004 0xFFFF8000,
        Event.Xil_Out32 0xA0010008 0x00004000,
        Event.Xil_Out32 0xA001000C 0,
        Event.xil_printf (Msg.coefficientsUpdated (-32768) 16384 0) ] ∧
    floatToInt16 ((1 : ℚ) * 32768) = castInt16 32768 ∧
    floatToInt16 ((1 : ℚ) * 32768) ≠ 32767 ∧
    floatToInt16 ((-(3 / 2) : ℚ) * 32768) = castInt16 (-49152) ∧
    floatToInt16 ((-(3 / 2) : ℚ) * 32768) ≠ -32768 := by
  have h1 : floatToInt16 ((1 : ℚ) * 32768) = castInt16 32768 := by
    unfold floatToInt16
    rw [truncToInt_of_eq 32768 _ (by norm_num)]
  have h2 : floatToInt16 ((-(3 / 2) : ℚ) * 32768) = castInt16 (-49152) := by
    unfold floatToInt16
    rw [truncToInt_of_eq (-49152) _ (by norm_num)]
  have h3 : floatToInt16 ((0 : ℚ) * 32768) = 0 := floatToInt16_zero
  refine ⟨?_, h1, ?_, h2, ?_⟩
  · unfold IIR_Set_Coefficients
    rw [h1, h2, h3]
    decide
  · rw [h1]; decide
  · rw [h2]; decide

/-- C3 (amended): `IIR_Set_Coefficients` has no range check.  For every
coefficient triple, in range or not, it performs exactly the three register
writes (nothing is rejected), and each encoded value is the truncation of
`x * 2^15` reduced modulo `2^16` into `[-32768, 32767]` (for `-65536 ≤ x < 65536`,
the reach of the conversion as compiled): the truncation itself when `-1 ≤ x < 1`,
a wrapped and not a saturated value otherwise, negative for `1 ≤ x < 2` and
positive for `-2 < x ≤ -1 - 2^-15`. -/
theorem out_of_range_not_checked {α : Type} [LinearOrderedField α] [FloorRing α]
    (a0 a1 b1 : α) :
    (IIR_Set_Coefficients a0 a1 b1).filter isRegWrite =
      [ Event.Xil_Out32 0xA0010004 (toU32 (floatToInt16 (a0 * 32768))),
        Event.Xil_Out32 0xA0010008 (toU32 (floatToInt16 (a1 * 32768))),
        Event.Xil_Out32 0xA001000C (toU32 (floatToInt16 (b1 * 32768))) ] ∧
    (∀ x : α, -65536 ≤ x → x < 65536 →
      (floatToInt16 (x * 32768) - truncToInt (x * 32768)) % 65536 = 0 ∧
      -32768 ≤ floatToInt16 (x * 32768) ∧ floatToInt16 (x * 32768) ≤ 32767) ∧
    (∀ x : α, -1 ≤ x → x < 1 → floatToInt16 (x * 32768) = truncToInt (x * 32768)) ∧
    (∀ x : α, 1 ≤ x → x < 2 →
      floatToInt16 (x * 32768) = truncToInt (x * 32768) - 65536 ∧
      floatToInt16 (x * 32768) < 0) ∧
    (∀ x : α, -2 < x → x ≤ -1 - 1 / 2 ^ 15 →
      floatToInt16 (x * 32768) = truncToInt (x * 32768) + 65536 ∧
      0 < floatToInt16 (x * 32768)) := by
  refine ⟨rfl, ?_, fun x => floatToInt16_in_range x, ?_, ?_⟩
  · intro x _ _
    exact ⟨castInt16_congr _, (castInt16_range _).1, (castInt16_range _).2⟩
  · intro x h1 h2
    have h0 : (0 : α) ≤ x * 32768 := by linarith
    have hlo : (32768 : Int) ≤ ⌊x * 32768⌋ := Int.le_floor.mpr (by push_cast; linarith)
    have hhi : ⌊x * 32768⌋ < (65536 : Int) := Int.floor_lt.mpr (by push_cast; linarith)
    unfold floatToInt16 truncToInt castInt16
    rw [if_pos h0]
    omega
  · intro x h1 h2
    have h15 : (2 : α) ^ 15 = 32768 := by norm_num
    rw [h15] at h2
    have hx : x * 32768 ≤ -32769 := by
      have : x * 32768 ≤ (-1 - 1 / 32768) * 32768 := by
        apply mul_le_mul_of_nonneg_right h2 (by norm_num)
      have h3 : ((-1 : α) - 1 / 32768) * 32768 = -32769 := by norm_num
      linarith
    have h0 : ¬ (0 : α) ≤ x * 32768 := by
      intro h; linarith
    have hlo : (-65536 : Int) < ⌈x * 32768⌉ := Int.lt_ceil.mpr (by push_cast; linarith)
    have hhi : ⌈x * 32768⌉ ≤ (-32769 : Int) := Int.ceil_le.mpr (by push_cast; linarith)
    unfold floatToInt16 truncToInt castInt16
    rw [if_neg h0]
    omega

/-- Witness for C3 (amended) at `x = 1.0`: the encoded value is negative. -/
theorem out_of_range_not_checked_witness :
    (1 : ℚ) ≤ 1 ∧ (1 : ℚ) < 2 ∧ floatToInt16 ((1 : ℚ) * 32768) < 0 :=
  ⟨le_refl 1, by norm_num,
    ((out_of_range_not_checked (1 : ℚ) 1 1).2.2.2.1 1 (le_refl 1) (by norm_num)).2⟩

/-- C4 (refuted as stated): for the in-range negative coefficient `a0 = -0.5`
the word written to the A0 register is `0xFFFFC000`, whose upper 16 bits are
`0xFFFF`, not zero. -/
theorem negative_coefficient_upper_bits :
    (-1 : ℚ) ≤ -(1 / 2) ∧ (-(1 / 2) : ℚ) < 1 ∧
    IIR_Set_Coefficients (-(1 / 2) : ℚ) 0 0 =
      [ Event.Xil_Out32 0xA0010004 0xFFFFC000,
        Event.Xil_Out32 0xA0010008 0,
        Event.Xil_Out32 0xA001000C 0,
        Event.xil_printf (Msg.coefficientsUpdated (-16384) 0 0) ] ∧
    (0xFFFFC000 : Nat) >>> 16 = 0xFFFF ∧ (0xFFFFC000 : Nat) >>> 16 ≠ 0 := by
  refine ⟨by norm_num, by norm_num, ?_, by decide, by decide⟩
  unfold IIR_Set_Coefficients
  rw [floatToInt16_neg_half, floatToInt16_zero]
  decide

/-- C4 (amended): for every coefficient triple with each value in `[-1, 1)`,
`IIR_Set_Coefficients` writes exactly three registers, at offsets `0x04`,
`0x08` and `0x0C`, in that order; each word is a 32-bit value whose lower 16
bits are the 16-bit two's-complement encoding of the truncated coefficient and
whose upper 16 bits repeat its sign: zero when the encoded value is
non-negative, `0xFFFF` when it is negative. -/
theorem coefficient_words_sign_extended {α : Type} [LinearOrderedField α] [FloorRing α]
    (a0 a1 b1 : α) (h0 : -1 ≤ a0 ∧ a0 < 1) (h1 : -1 ≤ a1 ∧ a1 < 1)
    (h2 : -1 ≤ b1 ∧ b1 < 1) :
    (IIR_Set_Coefficients a0 a1 b1).filter isRegWrite =
      [ Event.Xil_Out32 (IIR_BASE_ADDR + 0x04) (toU32 (truncToInt (a0 * 32768))),
        Event.Xil_Out32 (IIR_BASE_ADDR + 0x08) (toU32 (truncToInt (a1 * 32768))),
        Event.Xil_Out32 (IIR_BASE_ADDR + 0x0C) (toU32 (truncToInt (b1 * 32768))) ] ∧
    (∀ x : α, -1 ≤ x → x < 1 →
      toU32 (truncToInt (x * 32768)) < 2 ^ 32 ∧
      toU32 (truncToInt (x * 32768)) % 2 ^ 16 = twosComplement16 (truncToInt (x * 32768)) ∧
      toU32 (truncToInt (x * 32768)) / 2 ^ 16 =
        (if truncToInt (x * 32768) < 0 then 0xFFFF else 0)) := by
  constructor
  · unfold IIR_Set_Coefficients
    rw [floatToInt16_in_range a0 h0.1 h0.2, floatToInt16_in_range a1 h1.1 h1.2,
      floatToInt16_in_range b1 h2.1 h2.2]
    rfl
  · intro x hx1 hx2
    have hr := truncToInt_range (x * 32768) (by linarith) (by linarith)
    generalize truncToInt (x * 32768) = n at hr
    unfold toU32 twosComplement16
    obtain ⟨hr1, hr2⟩ := hr
    refine ⟨by omega, by omega, ?_⟩
    split <;> omega

/-- Witness for C4 (amended) at `(a0, a1, b1) = (-0.5, 0, 0.5)`. -/
theorem coefficient_words_sign_extended_witness :
    ((-1 : ℚ) ≤ -(1 / 2) ∧ (-(1 / 2) : ℚ) < 1) ∧
    (IIR_Set_Coefficients (-(1 / 2) : ℚ) 0 (1 / 2)).filter isRegWrite =
      [ Event.Xil_Out32 (IIR_BASE_ADDR + 0x04) (toU32 (truncToInt ((-(1 / 2) : ℚ) * 32768))),
        Event.Xil_Out32 (IIR_BASE_ADDR + 0x08) (toU32 (truncToInt ((0 : ℚ) * 32768))),
        Event.Xil_Out32 (IIR_BASE_ADDR + 0x0C) (toU32 (truncToInt ((1 / 2 : ℚ) * 32768))) ] :=
  ⟨⟨by norm_num, by norm_num⟩,
    (coefficient_words_sign_extended (-(1 / 2) : ℚ) 0 (1 / 2)
      ⟨by norm_num, by norm_num⟩ ⟨by norm_num, by norm_num⟩
      ⟨by norm_num, by norm_num⟩).1⟩

/-- C5: for all arguments, `IIR_Enable` performs exactly one register write, to
the control register at `IIR_BASE_ADDR + 0x00`; its value is `1` if `enable` is
non-zero plus `2` if `clear` is non-zero, so all bits above bit 1 are zero; no
coefficient register is written; and `IIR_Enable(1,1)` followed by
`IIR_Enable(1,0)` writes `3` and then `1`, whose bit 1 is zero. -/
theorem IIR_Enable_one_control_write (enable clear : Nat) :
    IIR_Enable enable clear =
      [ Event.Xil_Out32 (IIR_BASE_ADDR + 0x00)
          ((if enable ≠ 0 then 1 else 0) + (if clear ≠ 0 then 2 else 0)) ] ∧
    (IIR_Enable enable clear).length = 1 ∧
    ((if enable ≠ 0 then 1 else 0) + (if clear ≠ 0 then 2 else 0)) / 4 = 0 ∧
    (∀ v, Event.Xil_Out32 (IIR_BASE_ADDR + REG_A0_OFFSET) v ∉ IIR_Enable enable clear ∧
      Event.Xil_Out32 (IIR_BASE_ADDR + REG_A1_OFFSET) v ∉ IIR_Enable enable clear ∧
      Event.Xil_Out32 (IIR_BASE_ADDR + REG_B1_OFFSET) v ∉ IIR_Enable enable clear) ∧
    IIR_Enable 1 1 ++ IIR_Enable 1 0 =
      [ Event.Xil_Out32 0xA0010000 3, Event.Xil_Out32 0xA0010000 1 ] ∧
    (1 : Nat) &&& 0x02 = 0 := by
  have hv : IIR_Enable enable clear =
      [ Event.Xil_Out32 (IIR_BASE_ADDR + 0x00)
          ((if enable ≠ 0 then 1 else 0) + (if clear ≠ 0 then 2 else 0)) ] := by
    unfold IIR_Enable REG_CTRL_OFFSET
    by_cases he : enable = 0 <;> by_cases hc : clear = 0 <;> simp [he, hc]
  refine ⟨hv, by rw [hv]; rfl, ?_, ?_, by decide, by decide⟩
  · by_cases he : enable = 0 <;> by_cases hc : clear = 0 <;> simp [he, hc]
  · intro v
    rw [hv]
    simp [IIR_BASE_ADDR, REG_A0_OFFSET, REG_A1_OFFSET, REG_B1_OFFSET]

/-- C6: for all signed 16-bit `(l, r)`, the word `(l << 16) | (r & 0xFFFF)`
built the way `main` builds a Tx word is a 32-bit value with the pattern of `l`
in its high and that of `r` in its low 16 bits, and unpacking it the way `main`
reads an Rx word, `(int16_t)(w >> 16)` and `(int16_t)(w & 0xFFFF)`, recovers
exactly `(l, r)`; `(10000, 10000)` packs to `0x27102710`. -/
theorem pack_unpack_roundtrip (l r : Int) (hl : -32768 ≤ l ∧ l ≤ 32767)
    (hr : -32768 ≤ r ∧ r ≤ 32767) :
    packSample l r < 2 ^ 32 ∧
    packSample l r / 2 ^ 16 = twosComplement16 l ∧
    packSample l r % 2 ^ 16 = twosComplement16 r ∧
    unpackLeft (packSample l r) = l ∧
    unpackRight (packSample l r) = r ∧
    packSample 10000 10000 = 0x27102710 := by
  have hp := packSample_eq l r
  have hand : packSample l r &&& 0xFFFF = packSample l r % 65536 :=
    Nat.and_pow_two_sub_one_eq_mod (packSample l r) 16
  have hshift : packSample l r >>> 16 = packSample l r / 65536 := by
    rw [Nat.shiftRight_eq_div_pow]
  obtain ⟨hl1, hl2⟩ := hl
  obtain ⟨hr1, hr2⟩ := hr
  unfold unpackLeft unpackRight
  rw [hand, hshift, hp]
  unfold toU32 twosComplement16 castInt16
  refine ⟨by omega, by omega, by omega, by omega, by omega, by decide⟩

/-- Witness for C6 at the impulse sample `(10000, 10000)` of `main`. -/
theorem pack_unpack_roundtrip_witness :
    ((-32768 : Int) ≤ 10000 ∧ (10000 : Int) ≤ 32767) ∧
    unpackLeft (packSample 10000 10000) = 10000 ∧
    unpackRight (packSample 10000 10000) = 10000 ∧
    packSample 10000 10000 = 0x27102710 :=
  ⟨by decide,
    (pack_unpack_roundtrip 10000 10000 (by decide) (by decide)).2.2.2.1,
    (pack_unpack_roundtrip 10000 10000 (by decide) (by decide)).2.2.2.2.1,
    (pack_unpack_roundtrip 10000 10000 (by decide) (by decide)).2.2.2.2.2⟩

/-! ## The shape of the trace of `main` -/

theorem configure_eq :
    IIR_Enable 1 1 ++ IIR_Set_Coefficients (1 / 2 : ℚ) 0 (1 / 2) ++ IIR_Enable 1 0 =
      [ Event.Xil_Out32 0xA0010000 3,
        Event.Xil_Out32 0xA0010004 16384,
        Event.Xil_Out32 0xA0010008 0,
        Event.Xil_Out32 0xA001000C 16384,
        Event.xil_printf (Msg.coefficientsUpdated 16384 0 16384),
        Event.Xil_Out32 0xA0010000 1 ] := by
  have hz : floatToInt16 ((0 : ℚ) * 32768) = 0 := floatToInt16_zero
  have hh : floatToInt16 ((1 / 2 : ℚ) * 32768) = 16384 := floatToInt16_half
  unfold IIR_Set_Coefficients
  rw [hz, hh]
  decide

/-- The six ways a run of `main` can go, with the exact trace of each. -/
theorem main_cases (d : Driver) (fuel : Nat) :
    (d.configFound = false ∧
      main d fuel = (bootTrace false ++ [Event.xil_printf Msg.errConfigNotFound],
        some XST_FAILURE)) ∨
    (d.configFound = true ∧ d.initStatus ≠ XST_SUCCESS ∧
      main d fuel = (bootTrace true ++ [Event.XAxiDma_CfgInitialize d.initStatus,
        Event.xil_printf Msg.errInitFailed], some XST_FAILURE)) ∨
    (d.configFound = true ∧ d.initStatus = XST_SUCCESS ∧ d.rxStatus ≠ XST_SUCCESS ∧
      main d fuel = (setupTrace ++ rxStart d.rxStatus ::
        [Event.xil_printf Msg.errRxTransfer], some XST_FAILURE)) ∨
    (d.configFound = true ∧ d.initStatus = XST_SUCCESS ∧ d.rxStatus = XST_SUCCESS ∧
      d.txStatus ≠ XST_SUCCESS ∧
      main d fuel = ((setupTrace ++ [rxStart XST_SUCCESS]) ++ txStart d.txStatus ::
        [Event.xil_printf Msg.errTxTransfer], some XST_FAILURE)) ∨
    (d.configFound = true ∧ d.initStatus = XST_SUCCESS ∧ d.rxStatus = XST_SUCCESS ∧
      d.txStatus = XST_SUCCESS ∧ (pollLoop d.busy fuel 0).2 = false ∧
      main d fuel = ((setupTrace ++ [rxStart XST_SUCCESS]) ++ txStart XST_SUCCESS ::
        (pollLoop d.busy fuel 0).1, none)) ∨
    (d.configFound = true ∧ d.initStatus = XST_SUCCESS ∧ d.rxStatus = XST_SUCCESS ∧
      d.txStatus = XST_SUCCESS ∧ (pollLoop d.busy fuel 0).2 = true ∧
      main d fuel = ((setupTrace ++ [rxStart XST_SUCCESS]) ++ txStart XST_SUCCESS ::
        ((pollLoop d.busy fuel 0).1 ++ inspectTrace d.rxWord), some 0)) := by
  have hcfg : ∀ tl : List Event,
      IIR_Enable 1 1 ++ (IIR_Set_Coefficients (1 / 2 : ℚ) 0 (1 / 2) ++ (IIR_Enable 1 0 ++ tl)) =
        [ Event.Xil_Out32 0xA0010000 3,
          Event.Xil_Out32 0xA0010004 16384,
          Event.Xil_Out32 0xA0010008 0,
          Event.Xil_Out32 0xA001000C 16384,
          Event.xil_printf (Msg.coefficientsUpdated 16384 0 16384),
          Event.Xil_Out32 0xA0010000 1 ] ++ tl := by
    intro tl
    rw [← configure_eq]
    simp only [List.append_assoc]
  have hpk : packSample 10000 10000 = 655370000 := by decide
  by_cases h1 : d.configFound = false
  · left
    refine ⟨h1, ?_⟩
    simp [main, h1, bootTrace, DMA_DEV_ID]
  · have h1t : d.configFound = true := by simpa using h1
    right
    by_cases h2 : d.initStatus = XST_SUCCESS
    · right
      by_cases h3 : d.rxStatus = XST_SUCCESS
      · right
        by_cases h4 : d.txStatus = XST_SUCCESS
        · right
          by_cases h5 : (pollLoop d.busy fuel 0).2 = false
          · left
            refine ⟨h1t, h2, h3, h4, h5, ?_⟩
            simp only [main, h1t, h2, h3, h4, h5, List.append_assoc, hcfg]
            simp [setupTrace, fillTrace, bootTrace, configTrace, flushTx, rxStart, txStart,
              DMA_DEV_ID, XST_SUCCESS, TEST_LENGTH, sizeof_u32, RX_BUFFER_BASE, TX_BUFFER_BASE,
              MEM_BASE_ADDR, hpk]
          · right
            have h5t : (pollLoop d.busy fuel 0).2 = true := by simpa using h5
            refine ⟨h1t, h2, h3, h4, h5t, ?_⟩
            simp only [main, h1t, h2, h3, h4, h5t, List.append_assoc, hcfg]
            simp [setupTrace, fillTrace, bootTrace, configTrace, flushTx, rxStart, txStart,
              inspectTrace, invalidateRx,
              DMA_DEV_ID, XST_SUCCESS, TEST_LENGTH, sizeof_u32, RX_BUFFER_BASE, TX_BUFFER_BASE,
              MEM_BASE_ADDR, hpk]
        · left
          refine ⟨h1t, h2, h3, h4, ?_⟩
          have h4z : ¬ d.txStatus = 0 := h4
          simp only [main, h1t, h2, h3, List.append_assoc, hcfg]
          simp [setupTrace, fillTrace, bootTrace, configTrace, flushTx, rxStart, txStart,
            DMA_DEV_ID, XST_SUCCESS, TEST_LENGTH, sizeof_u32, RX_BUFFER_BASE, TX_BUFFER_BASE,
            MEM_BASE_ADDR, h4z, hpk]
      · left
        refine ⟨h1t, h2, h3, ?_⟩
        have h3z : ¬ d.rxStatus = 0 := h3
        simp only [main, h1t, h2, List.append_assoc, hcfg]
        simp [setupTrace, fillTrace, bootTrace, configTrace, flushTx, rxStart, txStart,
          DMA_DEV_ID, XST_SUCCESS, TEST_LENGTH, sizeof_u32, RX_BUFFER_BASE, TX_BUFFER_BASE,
          MEM_BASE_ADDR, h3z, hpk]
    · left
      refine ⟨h1t, h2, ?_⟩
      simp [main, h1t, h2, bootTrace, DMA_DEV_ID]

/-! ## Splitting a trace at an event -/

/-- An event that occurs once in a trace splits it in one way only. -/
theorem split_unique {α : Type} (keep : α → Bool) {X Y pre post : List α} {x e : α}
    (h : X ++ x :: Y = pre ++ e :: post) (hX : ∀ y ∈ X, keep y = false)
    (hY : ∀ y ∈ Y, keep y = false) (he : keep e = true) :
    pre = X ∧ e = x ∧ post = Y := by
  rw [List.append_eq_append_iff] at h
  rcases h with ⟨a, hpre, ha⟩ | ⟨c, hXc, hc⟩
  · cases a with
    | nil =>
      simp only [List.nil_append, List.cons.injEq] at ha
      exact ⟨by simpa using hpre, ha.1.symm, ha.2.symm⟩
    | cons b a =>
      simp only [List.cons_append, List.cons.injEq] at ha
      have hmem : e ∈ Y := by rw [ha.2]; simp
      rw [hY e hmem] at he
      exact absurd he (by decide)
  · cases c with
    | nil =>
      simp only [List.nil_append, List.cons.injEq] at hc
      exact ⟨by simpa using hXc.symm, hc.1, hc.2⟩
    | cons b c =>
      simp only [List.cons_append, List.cons.injEq] at hc
      have hmem : e ∈ X := by rw [hXc, ← hc.1]; simp
      rw [hX e hmem] at he
      exact absurd he (by decide)

/-- An event of a kind that does not occur before `x` comes after `x`. -/
theorem split_after {α : Type} (keep : α → Bool) {X Y pre post : List α} {x e : α}
    (h : X ++ x :: Y = pre ++ e :: post) (hX : ∀ y ∈ X, keep y = false)
    (hx : keep x = false) (he : keep e = true) : x ∈ pre := by
  rw [List.append_eq_append_iff] at h
  rcases h with ⟨a, hpre, ha⟩ | ⟨c, hXc, hc⟩
  · cases a with
    | nil =>
      simp only [List.nil_append, List.cons.injEq] at ha
      rw [← ha.1, hx] at he
      exact absurd he (by decide)
    | cons b a =>
      simp only [List.cons_append, List.cons.injEq] at ha
      rw [hpre, ← ha.1]; simp
  · cases c with
    | nil =>
      simp only [List.nil_append, List.cons.injEq] at hc
      rw [hc.1, hx] at he
      exact absurd he (by decide)
    | cons b c =>
      simp only [List.cons_append, List.cons.injEq] at hc
      have hmem : e ∈ X := by rw [hXc, ← hc.1]; simp
      rw [hX e hmem] at he
      exact absurd he (by decide)

/-- An event of a kind that does not occur after `x` comes before `x`. -/
theorem split_before {α : Type} (keep : α → Bool) {X Y pre post : List α} {x e : α}
    (h : X ++ x :: Y = pre ++ e :: post) (hY : ∀ y ∈ Y, keep y = false)
    (hx : keep x = false) (he : keep e = true) : x ∈ post := by
  rw [List.append_eq_append_iff] at h
  rcases h with ⟨a, hpre, ha⟩ | ⟨c, hXc, hc⟩
  · cases a with
    | nil =>
      simp only [List.nil_append, List.cons.injEq] at ha
      rw [← ha.1, hx] at he
      exact absurd he (by decide)
    | cons b a =>
      simp only [List.cons_append, List.cons.injEq] at ha
      have hmem : e ∈ Y := by rw [ha.2]; simp
      rw [hY e hmem] at he
      exact absurd he (by decide)
  · cases c with
    | nil =>
      simp only [List.nil_append, List.cons.injEq] at hc
      rw [hc.1, hx] at he
      exact absurd he (by decide)
    | cons b c =>
      simp only [List.cons_append, List.cons.injEq] at hc
      rw [hc.2]; simp

/-! ## The polling loop -/

theorem pollLoop_mem (busy : Nat → Direction → Bool) (fuel i : Nat) (y : Event)
    (hy : y ∈ (pollLoop busy fuel i).1) : isBusyQuery y = true := by
  induction fuel generalizing i with
  | zero => simp [pollLoop] at hy
  | succ n ih =>
    unfold pollLoop at hy
    split at hy
    · simp only [List.mem_cons] at hy
      rcases hy with rfl | hy
      · rfl
      · exact ih _ hy
    · split at hy
      · simp only [List.mem_cons] at hy
        rcases hy with rfl | rfl | hy
        · rfl
        · rfl
        · exact ih _ hy
      · simp only [List.mem_cons, List.mem_singleton] at hy
        rcases hy with rfl | rfl | hy
        · rfl
        · rfl
        · simp at hy

/-- When the loop is left, its last two queries are the transmit direction
and then the receive direction, both answering "not busy". -/
theorem pollLoop_done (busy : Nat → Direction → Bool) (fuel i : Nat)
    (h : (pollLoop busy fuel i).2 = true) :
    ∃ q, (pollLoop busy fuel i).1 =
      q ++ [ Event.XAxiDma_Busy Direction.XAXIDMA_DMA_TO_DEVICE false,
             Event.XAxiDma_Busy Direction.XAXIDMA_DEVICE_TO_DMA false ] := by
  induction fuel generalizing i with
  | zero => simp [pollLoop] at h
  | succ n ih =>
    unfold pollLoop at h ⊢
    split
    · rename_i hb
      rw [if_pos hb] at h
      obtain ⟨q, hq⟩ := ih (i + 1) h
      exact ⟨Event.XAxiDma_Busy Direction.XAXIDMA_DMA_TO_DEVICE true :: q, by simp [hq]⟩
    · rename_i hb
      rw [if_neg hb] at h
      split
      · rename_i hb2
        rw [if_pos hb2] at h
        obtain ⟨q, hq⟩ := ih (i + 1) h
        exact ⟨Event.XAxiDma_Busy Direction.XAXIDMA_DMA_TO_DEVICE false ::
          Event.XAxiDma_Busy Direction.XAXIDMA_DEVICE_TO_DMA true :: q, by simp [hq]⟩
      · exact ⟨[], rfl⟩

/-- The loop is left as soon as an evaluation of its condition finds both
directions not busy. -/
theorem pollLoop_terminates (busy : Nat → Direction → Bool) (k : Nat)
    (hk1 : busy k Direction.XAXIDMA_DMA_TO_DEVICE = false)
    (hk2 : busy k Direction.XAXIDMA_DEVICE_TO_DMA = false) (fuel i : Nat)
    (hi : i ≤ k) (hf : k - i < fuel) : (pollLoop busy fuel i).2 = true := by
  induction fuel generalizing i with
  | zero => omega
  | succ n ih =>
    unfold pollLoop
    by_cases hik : i = k
    · subst hik
      simp [hk1, hk2]
    · have h1 : i + 1 ≤ k := by omega
      have h2 : k - (i + 1) < n := by omega
      split
      · exact ih (i + 1) h1 h2
      · split
        · exact ih (i + 1) h1 h2
        · rfl

/-! ## Which events occur in which piece of the trace -/

theorem busy_kinds (y : Event) (h : isBusyQuery y = true) :
    isStart y = false ∧ isTxStart y = false ∧ isRxStart y = false ∧ isRegWrite y = false ∧
    isTxWrite y = false ∧ isRxRead y = false ∧ isTxFlush y = false ∧
    isRxInvalidate y = false ∧ isSampleReport y = false ∧ isCacheRangeOp y = false := by
  cases y <;> simp_all [isBusyQuery, isStart, isTxStart, isRxStart, isRegWrite, isTxWrite,
    isRxRead, isTxFlush, isRxInvalidate, isSampleReport, isCacheRangeOp]

theorem inspectSamples_mem (w : Nat → Nat) (y : Event) (hy : y ∈ inspectSamples w) :
    (∃ i v, y = Event.load RX_BUFFER_BASE i v) ∨ (∃ i l r, y = Event.xil_printf (Msg.sample i l r)) := by
  unfold inspectSamples at hy
  rw [List.mem_flatMap] at hy
  obtain ⟨i, _, hy⟩ := hy
  simp only [List.mem_cons, List.mem_singleton] at hy
  rcases hy with rfl | rfl | rfl | hy
  · exact Or.inl ⟨_, _, rfl⟩
  · exact Or.inl ⟨_, _, rfl⟩
  · exact Or.inr ⟨_, _, _, rfl⟩
  · simp at hy

theorem inspectSamples_kinds (w : Nat → Nat) (y : Event) (hy : y ∈ inspectSamples w) :
    isStart y = false ∧ isTxStart y = false ∧ isRxStart y = false ∧ isRegWrite y = false ∧
    isTxWrite y = false ∧ isTxFlush y = false ∧ isRxInvalidate y = false ∧
    isBusyQuery y = false ∧ isCacheRangeOp y = false := by
  rcases inspectSamples_mem w y hy with ⟨i, v, rfl⟩ | ⟨i, l, r, rfl⟩ <;>
    simp [isBusyQuery, isStart, isTxStart, isRxStart, isRegWrite, isTxWrite,
      isTxFlush, isRxInvalidate, isCacheRangeOp]

set_option maxRecDepth 100000 in
theorem fillTrace_kinds : ∀ y ∈ fillTrace,
    isStart y = false ∧ isTxStart y = false ∧ isRxStart y = false ∧ isRegWrite y = false ∧
    isRxRead y = false ∧ isTxFlush y = false ∧ isRxInvalidate y = false ∧
    isBusyQuery y = false ∧ isSampleReport y = false ∧ isCacheRangeOp y = false := by
  decide

set_option maxRecDepth 100000 in
theorem configTrace_kinds : ∀ y ∈ configTrace,
    isStart y = false ∧ isTxStart y = false ∧ isRxStart y = false ∧
    isRxRead y = false ∧ isTxFlush y = false ∧ isRxInvalidate y = false ∧
    isBusyQuery y = false ∧ isSampleReport y = false ∧ isTxWrite y = false := by
  decide

theorem flushTx_kinds :
    isStart flushTx = false ∧ isTxStart flushTx = false ∧ isRxStart flushTx = false ∧
    isRegWrite flushTx = false ∧ isRxRead flushTx = false ∧ isTxFlush flushTx = true ∧
    isRxInvalidate flushTx = false ∧ isBusyQuery flushTx = false ∧
    isSampleReport flushTx = false ∧ isTxWrite flushTx = false := by
  decide

theorem setupTrace_kinds (y : Event) (hy : y ∈ setupTrace) :
    isStart y = false ∧ isTxStart y = false ∧ isRxStart y = false ∧
    isRxRead y = false ∧ isRxInvalidate y = false ∧
    isBusyQuery y = false ∧ isSampleReport y = false := by
  unfold setupTrace at hy
  simp only [List.mem_append, List.mem_cons] at hy
  rcases hy with hy | rfl | hy
  · have := fillTrace_kinds y hy; tauto
  · have := flushTx_kinds; tauto
  · have := configTrace_kinds y hy; tauto

theorem start_kinds (addr len : Nat) (dir : Direction) (st : Int) :
    isStart (Event.XAxiDma_SimpleTransfer addr len dir st) = true ∧
    isRegWrite (Event.XAxiDma_SimpleTransfer addr len dir st) = false ∧
    isTxWrite (Event.XAxiDma_SimpleTransfer addr len dir st) = false ∧
    isRxRead (Event.XAxiDma_SimpleTransfer addr len dir st) = false ∧
    isTxFlush (Event.XAxiDma_SimpleTransfer addr len dir st) = false ∧
    isRxInvalidate (Event.XAxiDma_SimpleTransfer addr len dir st) = false ∧
    isBusyQuery (Event.XAxiDma_SimpleTransfer addr len dir st) = false ∧
    isSampleReport (Event.XAxiDma_SimpleTransfer addr len dir st) = false := by
  simp [isStart, isRegWrite, isTxWrite, isRxRead, isTxFlush, isRxInvalidate, isBusyQuery,
    isSampleReport]

theorem early_exit_kinds (found : Bool) (tl : List Event)
    (htl : tl = [Event.xil_printf Msg.errConfigNotFound] ∨
      ∃ st, tl = [Event.XAxiDma_CfgInitialize st, Event.xil_printf Msg.errInitFailed])
    (y : Event) (hy : y ∈ bootTrace found ++ tl) :
    isStart y = false ∧ isTxStart y = false ∧ isRxStart y = false ∧ isRegWrite y = false ∧
    isTxWrite y = false ∧ isRxRead y = false ∧ isTxFlush y = false ∧
    isRxInvalidate y = false ∧ isBusyQuery y = false ∧ isSampleReport y = false ∧
    isCacheRangeOp y = false := by
  rcases htl with rfl | ⟨st, rfl⟩
  · simp only [bootTrace, List.mem_append, List.mem_cons, List.mem_singleton,
      List.not_mem_nil, or_false] at hy
    rcases hy with (rfl | rfl | rfl | rfl) | rfl <;>
      simp [isBusyQuery, isStart, isTxStart, isRxStart, isRegWrite, isTxWrite, isRxRead,
        isTxFlush, isRxInvalidate, isSampleReport, isCacheRangeOp]
  · simp only [bootTrace, List.mem_append, List.mem_cons, List.mem_singleton,
      List.not_mem_nil, or_false] at hy
    rcases hy with (rfl | rfl | rfl | rfl) | rfl | rfl <;>
      simp [isBusyQuery, isStart, isTxStart, isRxStart, isRegWrite, isTxWrite, isRxRead,
        isTxFlush, isRxInvalidate, isSampleReport, isCacheRangeOp]

theorem printf_kinds (m : Msg) :
    isStart (Event.xil_printf m) = false ∧ isTxStart (Event.xil_printf m) = false ∧
    isRxStart (Event.xil_printf m) = false ∧ isRegWrite (Event.xil_printf m) = false ∧
    isTxWrite (Event.xil_printf m) = false ∧ isRxRead (Event.xil_printf m) = false ∧
    isTxFlush (Event.xil_printf m) = false ∧ isRxInvalidate (Event.xil_printf m) = false ∧
    isBusyQuery (Event.xil_printf m) = false ∧ isCacheRangeOp (Event.xil_printf m) = false := by
  simp [isBusyQuery, isStart, isTxStart, isRxStart, isRegWrite, isTxWrite, isRxRead,
    isTxFlush, isRxInvalidate, isCacheRangeOp]

theorem invalidateRx_kinds :
    isStart invalidateRx = false ∧ isTxStart invalidateRx = false ∧
    isRxStart invalidateRx = false ∧ isRegWrite invalidateRx = false ∧
    isTxWrite invalidateRx = false ∧ isRxRead invalidateRx = false ∧
    isTxFlush invalidateRx = false ∧ isRxInvalidate invalidateRx = true ∧
    isBusyQuery invalidateRx = false ∧ isSampleReport invalidateRx = false := by
  decide

theorem inspectTrace_kinds (w : Nat → Nat) (y : Event) (hy : y ∈ inspectTrace w) :
    isStart y = false ∧ isTxStart y = false ∧ isRxStart y = false ∧ isRegWrite y = false ∧
    isTxWrite y = false ∧ isTxFlush y = false ∧ isBusyQuery y = false := by
  unfold inspectTrace at hy
  simp only [List.mem_cons] at hy
  rcases hy with rfl | rfl | hy
  · have h := invalidateRx_kinds
    exact ⟨h.1, h.2.1, h.2.2.1, h.2.2.2.1, h.2.2.2.2.1, h.2.2.2.2.2.2.1, h.2.2.2.2.2.2.2.2.1⟩
  · have h := printf_kinds Msg.transferComplete
    exact ⟨h.1, h.2.1, h.2.2.1, h.2.2.2.1, h.2.2.2.2.1, h.2.2.2.2.2.2.1, h.2.2.2.2.2.2.2.2.1⟩
  · have h := inspectSamples_kinds w y hy
    exact ⟨h.1, h.2.1, h.2.2.1, h.2.2.2.1, h.2.2.2.2.1, h.2.2.2.2.2.1, h.2.2.2.2.2.2.2.1⟩

/-- What can follow the transmit start: the error line, or busy queries, or
busy queries and then the inspection of the output. -/
theorem after_tx_kinds (busy : Nat → Direction → Bool) (fuel : Nat) (w : Nat → Nat)
    (Y : List Event)
    (hY : Y = [Event.xil_printf Msg.errTxTransfer] ∨ Y = (pollLoop busy fuel 0).1 ∨
      Y = (pollLoop busy fuel 0).1 ++ inspectTrace w)
    (y : Event) (hy : y ∈ Y) :
    isStart y = false ∧ isTxStart y = false ∧ isRxStart y = false ∧ isRegWrite y = false ∧
    isTxWrite y = false ∧ isTxFlush y = false := by
  have hpoll : ∀ z ∈ (pollLoop busy fuel 0).1,
      isStart z = false ∧ isTxStart z = false ∧ isRxStart z = false ∧ isRegWrite z = false ∧
      isTxWrite z = false ∧ isTxFlush z = false := by
    intro z hz
    have h := busy_kinds z (pollLoop_mem busy fuel 0 z hz)
    exact ⟨h.1, h.2.1, h.2.2.1, h.2.2.2.1, h.2.2.2.2.1, h.2.2.2.2.2.2.1⟩
  rcases hY with rfl | rfl | rfl
  · simp only [List.mem_singleton] at hy
    subst hy
    have h := printf_kinds Msg.errTxTransfer
    exact ⟨h.1, h.2.1, h.2.2.1, h.2.2.2.1, h.2.2.2.2.1, h.2.2.2.2.2.2.1⟩
  · exact hpoll y hy
  · rw [List.mem_append] at hy
    rcases hy with hy | hy
    · exact hpoll y hy
    · have h := inspectTrace_kinds w y hy
      exact ⟨h.1, h.2.1, h.2.2.1, h.2.2.2.1, h.2.2.2.2.1, h.2.2.2.2.2.1⟩

/-- A run either contains no transmit start, or the receive start was accepted
and the trace is the setup, the receive start, the transmit start and a tail
without further starts, register writes or writes to the Tx buffer. -/
theorem main_tx_split (d : Driver) (fuel : Nat) :
    (∀ y ∈ (main d fuel).1, isTxStart y = false) ∨
    (d.configFound = true ∧ d.initStatus = XST_SUCCESS ∧ d.rxStatus = XST_SUCCESS ∧
      ∃ Y, (main d fuel).1 = (setupTrace ++ [rxStart XST_SUCCESS]) ++ txStart d.txStatus :: Y ∧
        ∀ y ∈ Y, isStart y = false ∧ isTxStart y = false ∧ isRxStart y = false ∧
          isRegWrite y = false ∧ isTxWrite y = false ∧ isTxFlush y = false) := by
  rcases main_cases d fuel with ⟨_, hm⟩ | ⟨_, _, hm⟩ | ⟨_, _, _, hm⟩ | ⟨h1, h2, h3, _, hm⟩ |
    ⟨h1, h2, h3, h4, _, hm⟩ | ⟨h1, h2, h3, h4, _, hm⟩
  · left
    intro y hy
    rw [hm] at hy
    exact (early_exit_kinds false _ (Or.inl rfl) y hy).2.1
  · left
    intro y hy
    rw [hm] at hy
    exact (early_exit_kinds true _ (Or.inr ⟨_, rfl⟩) y hy).2.1
  · left
    intro y hy
    rw [hm] at hy
    simp only [List.mem_append, List.mem_cons, List.mem_singleton, List.not_mem_nil,
      or_false] at hy
    rcases hy with hy | rfl | rfl
    · exact (setupTrace_kinds y hy).2.1
    · rfl
    · rfl
  · right
    refine ⟨h1, h2, h3, _, by rw [hm], ?_⟩
    exact after_tx_kinds d.busy fuel d.rxWord _ (Or.inl rfl)
  · right
    refine ⟨h1, h2, h3, _, by rw [hm, h4], ?_⟩
    exact after_tx_kinds d.busy fuel d.rxWord _ (Or.inr (Or.inl rfl))
  · right
    refine ⟨h1, h2, h3, _, by rw [hm, h4], ?_⟩
    exact after_tx_kinds d.busy fuel d.rxWord _ (Or.inr (Or.inr rfl))

/-- A run either stops before any buffer, filter or transfer operation, or it
is the setup, the receive start and a tail without a further receive start,
register write or write to the Tx buffer. -/
theorem main_rx_split (d : Driver) (fuel : Nat) :
    ((d.configFound = false ∨ d.initStatus ≠ XST_SUCCESS) ∧
      ∀ y ∈ (main d fuel).1, isStart y = false ∧ isRegWrite y = false ∧
        isTxWrite y = false ∧ isTxFlush y = false ∧ isCacheRangeOp y = false) ∨
    (d.configFound = true ∧ d.initStatus = XST_SUCCESS ∧
      ∃ Y, (main d fuel).1 = setupTrace ++ rxStart d.rxStatus :: Y ∧
        ∀ y ∈ Y, isRxStart y = false ∧ isRegWrite y = false ∧ isTxWrite y = false ∧
          isTxFlush y = false) := by
  have htx : ∀ st, isRxStart (txStart st) = false ∧ isRegWrite (txStart st) = false ∧
      isTxWrite (txStart st) = false ∧ isTxFlush (txStart st) = false := by
    intro st; simp [txStart, isRxStart, isRegWrite, isTxWrite, isTxFlush]
  have hcons : ∀ (st : Int) (Y : List Event),
      (∀ y ∈ Y, isStart y = false ∧ isTxStart y = false ∧ isRxStart y = false ∧
        isRegWrite y = false ∧ isTxWrite y = false ∧ isTxFlush y = false) →
      ∀ y ∈ txStart st :: Y, isRxStart y = false ∧ isRegWrite y = false ∧
        isTxWrite y = false ∧ isTxFlush y = false := by
    intro st Y hY y hy
    rw [List.mem_cons] at hy
    rcases hy with rfl | hy
    · exact htx st
    · have h := hY y hy
      exact ⟨h.2.2.1, h.2.2.2.1, h.2.2.2.2.1, h.2.2.2.2.2⟩
  rcases main_cases d fuel with ⟨h1, hm⟩ | ⟨_, h2, hm⟩ | ⟨h1, h2, _, hm⟩ | ⟨h1, h2, h3, _, hm⟩ |
    ⟨h1, h2, h3, h4, _, hm⟩ | ⟨h1, h2, h3, h4, _, hm⟩
  · left
    refine ⟨Or.inl h1, ?_⟩
    intro y hy
    rw [hm] at hy
    have h := early_exit_kinds false _ (Or.inl rfl) y hy
    exact ⟨h.1, h.2.2.2.1, h.2.2.2.2.1, h.2.2.2.2.2.2.1, h.2.2.2.2.2.2.2.2.2.2⟩
  · left
    refine ⟨Or.inr h2, ?_⟩
    intro y hy
    rw [hm] at hy
    have h := early_exit_kinds true _ (Or.inr ⟨_, rfl⟩) y hy
    exact ⟨h.1, h.2.2.2.1, h.2.2.2.2.1, h.2.2.2.2.2.2.1, h.2.2.2.2.2.2.2.2.2.2⟩
  · right
    refine ⟨h1, h2, _, by rw [hm], ?_⟩
    intro y hy
    simp only [List.mem_singleton] at hy
    subst hy
    have h := printf_kinds Msg.errRxTransfer
    exact ⟨h.2.2.1, h.2.2.2.1, h.2.2.2.2.1, h.2.2.2.2.2.2.1⟩
  · right
    refine ⟨h1, h2, txStart d.txStatus :: [Event.xil_printf Msg.errTxTransfer],
      by rw [hm, h3]; simp, ?_⟩
    exact hcons _ _ (after_tx_kinds d.busy fuel d.rxWord _ (Or.inl rfl))
  · right
    refine ⟨h1, h2, txStart XST_SUCCESS :: (pollLoop d.busy fuel 0).1,
      by rw [hm, h3]; simp, ?_⟩
    exact hcons _ _ (after_tx_kinds d.busy fuel d.rxWord _ (Or.inr (Or.inl rfl)))
  · right
    refine ⟨h1, h2, txStart XST_SUCCESS :: ((pollLoop d.busy fuel 0).1 ++ inspectTrace d.rxWord),
      by rw [hm, h3]; simp, ?_⟩
    exact hcons _ _ (after_tx_kinds d.busy fuel d.rxWord _ (Or.inr (Or.inr rfl)))

set_option maxRecDepth 100000 in
theorem setup_starts :
    setupTrace.filter isStart = [] ∧ setupTrace.filter isRxStart = [] ∧
    setupTrace.filter isRegWrite = filterWrites ∧ flushTx ∈ setupTrace := by
  decide

theorem isStart_cases (e : Event) (h : isStart e = true) :
    isRxStart e = true ∨ isTxStart e = true := by
  cases e <;> simp [isStart] at h
  rename_i addr len dir st
  cases dir
  · right; rfl
  · left; rfl

/-- The run of `main` against `idleDriver`, with fuel for one evaluation of the
polling condition. -/
theorem main_idleDriver :
    main idleDriver 1 = ((setupTrace ++ [rxStart XST_SUCCESS]) ++ txStart XST_SUCCESS ::
      ([ Event.XAxiDma_Busy Direction.XAXIDMA_DMA_TO_DEVICE false,
         Event.XAxiDma_Busy Direction.XAXIDMA_DEVICE_TO_DMA false ] ++
        inspectTrace idleDriver.rxWord), some 0) := by
  have hp : pollLoop idleDriver.busy 1 0 =
      ([ Event.XAxiDma_Busy Direction.XAXIDMA_DMA_TO_DEVICE false,
         Event.XAxiDma_Busy Direction.XAXIDMA_DEVICE_TO_DMA false ], true) := by
    simp [pollLoop, idleDriver]
  rcases main_cases idleDriver 1 with ⟨h, _⟩ | ⟨_, h, _⟩ | ⟨_, _, h, _⟩ | ⟨_, _, _, h, _⟩ |
    ⟨_, _, _, _, h, _⟩ | ⟨_, _, _, _, _, hm⟩
  · simp [idleDriver] at h
  · simp [idleDriver, XST_SUCCESS] at h
  · simp [idleDriver, XST_SUCCESS] at h
  · simp [idleDriver, XST_SUCCESS] at h
  · rw [hp] at h; simp at h
  · rw [hm, hp]

/-- A run either never gets to the inspection of the output, or all four
driver requests succeeded, the status is `0`, and the trace is the setup, both
starts, the busy queries ending in "not busy" for both directions, the
invalidate of the Rx buffer and the inspection. -/
theorem main_inspect_split (d : Driver) (fuel : Nat) :
    ((main d fuel).2 ≠ some 0 ∧
      ∀ y ∈ (main d fuel).1, isRxInvalidate y = false ∧ isRxRead y = false ∧
        isSampleReport y = false) ∨
    ((main d fuel).2 = some 0 ∧
      ∃ q, (main d fuel).1 =
        (setupTrace ++ rxStart XST_SUCCESS :: txStart XST_SUCCESS ::
          (q ++ [ Event.XAxiDma_Busy Direction.XAXIDMA_DMA_TO_DEVICE false,
                  Event.XAxiDma_Busy Direction.XAXIDMA_DEVICE_TO_DMA false ])) ++
        invalidateRx :: (Event.xil_printf Msg.transferComplete :: inspectSamples d.rxWord) ∧
        (∀ y ∈ setupTrace ++ rxStart XST_SUCCESS :: txStart XST_SUCCESS ::
          (q ++ [ Event.XAxiDma_Busy Direction.XAXIDMA_DMA_TO_DEVICE false,
                  Event.XAxiDma_Busy Direction.XAXIDMA_DEVICE_TO_DMA false ]),
          isRxInvalidate y = false ∧ isRxRead y = false ∧ isSampleReport y = false)) := by
  have hsetup : ∀ y ∈ setupTrace, isRxInvalidate y = false ∧ isRxRead y = false ∧
      isSampleReport y = false := by
    intro y hy
    have h := setupTrace_kinds y hy
    exact ⟨h.2.2.2.2.1, h.2.2.2.1, h.2.2.2.2.2.2⟩
  have hstart : ∀ addr len dir st,
      isRxInvalidate (Event.XAxiDma_SimpleTransfer addr len dir st) = false ∧
      isRxRead (Event.XAxiDma_SimpleTransfer addr len dir st) = false ∧
      isSampleReport (Event.XAxiDma_SimpleTransfer addr len dir st) = false := by
    intro addr len dir st
    have h := start_kinds addr len dir st
    exact ⟨h.2.2.2.2.2.1, h.2.2.2.1, h.2.2.2.2.2.2.2⟩
  have hpoll : ∀ y ∈ (pollLoop d.busy fuel 0).1, isRxInvalidate y = false ∧
      isRxRead y = false ∧ isSampleReport y = false := by
    intro y hy
    have h := busy_kinds y (pollLoop_mem d.busy fuel 0 y hy)
    exact ⟨h.2.2.2.2.2.2.2.1, h.2.2.2.2.2.1, h.2.2.2.2.2.2.2.2.1⟩
  rcases main_cases d fuel with ⟨_, hm⟩ | ⟨_, _, hm⟩ | ⟨_, _, _, hm⟩ | ⟨_, _, _, _, hm⟩ |
    ⟨_, _, _, _, _, hm⟩ | ⟨_, _, _, _, h5, hm⟩
  · left
    refine ⟨by rw [hm]; simp [XST_FAILURE], ?_⟩
    intro y hy
    rw [hm] at hy
    have h := early_exit_kinds false _ (Or.inl rfl) y hy
    exact ⟨h.2.2.2.2.2.2.2.1, h.2.2.2.2.2.1, h.2.2.2.2.2.2.2.2.2.1⟩
  · left
    refine ⟨by rw [hm]; simp [XST_FAILURE], ?_⟩
    intro y hy
    rw [hm] at hy
    have h := early_exit_kinds true _ (Or.inr ⟨_, rfl⟩) y hy
    exact ⟨h.2.2.2.2.2.2.2.1, h.2.2.2.2.2.1, h.2.2.2.2.2.2.2.2.2.1⟩
  · left
    refine ⟨by rw [hm]; simp [XST_FAILURE], ?_⟩
    intro y hy
    rw [hm] at hy
    simp only [List.mem_append, List.mem_cons, List.mem_singleton, List.not_mem_nil,
      or_false] at hy
    rcases hy with hy | rfl | rfl
    · exact hsetup y hy
    · exact hstart _ _ _ _
    · exact ⟨rfl, rfl, rfl⟩
  · left
    refine ⟨by rw [hm]; simp [XST_FAILURE], ?_⟩
    intro y hy
    rw [hm] at hy
    simp only [List.mem_append, List.mem_cons, List.mem_singleton, List.not_mem_nil,
      or_false] at hy
    rcases hy with (hy | rfl) | rfl | rfl
    · exact hsetup y hy
    · exact hstart _ _ _ _
    · exact hstart _ _ _ _
    · exact ⟨rfl, rfl, rfl⟩
  · left
    refine ⟨by rw [hm]; simp, ?_⟩
    intro y hy
    rw [hm] at hy
    simp only [List.mem_append, List.mem_cons, List.mem_singleton, List.not_mem_nil,
      or_false] at hy
    rcases hy with (hy | rfl) | rfl | hy
    · exact hsetup y hy
    · exact hstart _ _ _ _
    · exact hstart _ _ _ _
    · exact hpoll y hy
  · right
    obtain ⟨q, hq⟩ := pollLoop_done d.busy fuel 0 h5
    refine ⟨by rw [hm], q, ?_, ?_⟩
    · rw [hm, hq]
      simp [inspectTrace]
    · intro y hy
      rw [← hq] at hy
      simp only [List.mem_append, List.mem_cons] at hy
      rcases hy with hy | rfl | rfl | hy
      · exact hsetup y hy
      · exact hstart _ _ _ _
      · exact hstart _ _ _ _
      · exact hpoll y hy

/-! ## Claims about the sequencing in `main` -/

/-- C7: in every execution of `main`, whatever the DMA driver returns, a
transmit-direction (`DMA_TO_DEVICE`) start is preceded by exactly one transfer
start, which is the receive-direction (`DEVICE_TO_DMA`) start, was accepted
(returned `XST_SUCCESS`) and covers the 128-word (512-byte) Rx buffer; the
transmit start covers the 128-word Tx buffer, and no start follows it. -/
theorem rx_start_before_tx_start (d : Driver) (fuel : Nat) (pre post : List Event)
    (e : Event) (hsplit : (main d fuel).1 = pre ++ e :: post) (hTx : isTxStart e = true) :
    e = Event.XAxiDma_SimpleTransfer TX_BUFFER_BASE (128 * 4)
      Direction.XAXIDMA_DMA_TO_DEVICE d.txStatus ∧
    pre.filter isRxStart = [ Event.XAxiDma_SimpleTransfer RX_BUFFER_BASE (128 * 4)
      Direction.XAXIDMA_DEVICE_TO_DMA XST_SUCCESS ] ∧
    pre.filter isStart = [ Event.XAxiDma_SimpleTransfer RX_BUFFER_BASE (128 * 4)
      Direction.XAXIDMA_DEVICE_TO_DMA XST_SUCCESS ] ∧
    d.rxStatus = XST_SUCCESS ∧
    (∀ y ∈ post, isStart y = false) := by
  rcases main_tx_split d fuel with hno | ⟨_, _, h3, Y, hm, hY⟩
  · have hmem : e ∈ (main d fuel).1 := by rw [hsplit]; simp
    rw [hno e hmem] at hTx
    exact absurd hTx (by decide)
  · have hX : ∀ y ∈ setupTrace ++ [rxStart XST_SUCCESS], isTxStart y = false := by
      intro y hy
      simp only [List.mem_append, List.mem_singleton] at hy
      rcases hy with hy | rfl
      · exact (setupTrace_kinds y hy).2.1
      · rfl
    obtain ⟨hpre, he, hpost⟩ :=
      split_unique isTxStart (hm.symm.trans hsplit) hX (fun y hy => (hY y hy).2.1) hTx
    subst hpre he hpost
    refine ⟨rfl, ?_, ?_, h3, fun y hy => (hY y hy).1⟩
    · rw [List.filter_append, setup_starts.2.1]; rfl
    · rw [List.filter_append, setup_starts.1]; rfl

/-- Witness for C7: the run against `idleDriver`, split at its transmit start. -/
theorem rx_start_before_tx_start_witness :
    isTxStart (txStart XST_SUCCESS) = true ∧
    (setupTrace ++ [rxStart XST_SUCCESS]).filter isStart =
      [ Event.XAxiDma_SimpleTransfer RX_BUFFER_BASE (128 * 4)
        Direction.XAXIDMA_DEVICE_TO_DMA XST_SUCCESS ] :=
  ⟨rfl, (rx_start_before_tx_start idleDriver 1 (setupTrace ++ [rxStart XST_SUCCESS])
    ([ Event.XAxiDma_Busy Direction.XAXIDMA_DMA_TO_DEVICE false,
       Event.XAxiDma_Busy Direction.XAXIDMA_DEVICE_TO_DMA false ] ++
      inspectTrace idleDriver.rxWord) (txStart XST_SUCCESS)
    (congrArg Prod.fst main_idleDriver) rfl).2.2.1⟩

/-- C9: in every execution of `main` in which the DMA lookup and initialization
succeed, the filter register writes of the whole run are exactly, in this
order, control (`0x00`) ← 3, A0 (`0x04`) ← 16384, A1 (`0x08`) ← 0,
B1 (`0x0C`) ← 16384, control (`0x00`) ← 1; and all five have been made before
any transfer start. -/
theorem filter_writes_precede_start (d : Driver) (fuel : Nat)
    (h1 : d.configFound = true) (h2 : d.initStatus = XST_SUCCESS) :
    (main d fuel).1.filter isRegWrite =
      [ Event.Xil_Out32 (IIR_BASE_ADDR + 0x00) 3,
        Event.Xil_Out32 (IIR_BASE_ADDR + 0x04) 16384,
        Event.Xil_Out32 (IIR_BASE_ADDR + 0x08) 0,
        Event.Xil_Out32 (IIR_BASE_ADDR + 0x0C) 16384,
        Event.Xil_Out32 (IIR_BASE_ADDR + 0x00) 1 ] ∧
    (∃ pre e post, (main d fuel).1 = pre ++ e :: post ∧ isStart e = true) ∧
    (∀ pre e post, (main d fuel).1 = pre ++ e :: post → isStart e = true →
      pre.filter isRegWrite =
        [ Event.Xil_Out32 (IIR_BASE_ADDR + 0x00) 3,
          Event.Xil_Out32 (IIR_BASE_ADDR + 0x04) 16384,
          Event.Xil_Out32 (IIR_BASE_ADDR + 0x08) 0,
          Event.Xil_Out32 (IIR_BASE_ADDR + 0x0C) 16384,
          Event.Xil_Out32 (IIR_BASE_ADDR + 0x00) 1 ]) := by
  have hfw : [ Event.Xil_Out32 (IIR_BASE_ADDR + 0x00) 3,
        Event.Xil_Out32 (IIR_BASE_ADDR + 0x04) 16384,
        Event.Xil_Out32 (IIR_BASE_ADDR + 0x08) 0,
        Event.Xil_Out32 (IIR_BASE_ADDR + 0x0C) 16384,
        Event.Xil_Out32 (IIR_BASE_ADDR + 0x00) 1 ] = filterWrites := by decide
  rw [hfw]
  rcases main_rx_split d fuel with ⟨hfail, _⟩ | ⟨_, _, Y, hm, hY⟩
  · rcases hfail with h | h
    · rw [h1] at h; exact absurd h (by decide)
    · exact absurd h2 h
  · have hYnil : Y.filter isRegWrite = [] := by
      rw [List.filter_eq_nil_iff]
      intro y hy
      rw [(hY y hy).2.1]
      decide
    refine ⟨?_, ⟨setupTrace, rxStart d.rxStatus, Y, hm, rfl⟩, ?_⟩
    · rw [hm, List.filter_append, setup_starts.2.2.1]
      have : isRegWrite (rxStart d.rxStatus) = false := rfl
      rw [List.filter_cons, this, hYnil]
      simp
    · intro pre e post hsplit he
      rcases isStart_cases e he with hrx | htx
      · obtain ⟨hpre, _, _⟩ := split_unique isRxStart (hm.symm.trans hsplit)
          (fun y hy => (setupTrace_kinds y hy).2.2.1) (fun y hy => (hY y hy).1) hrx
        rw [hpre]
        exact setup_starts.2.2.1
      · rcases main_tx_split d fuel with hno | ⟨_, _, _, Y2, hm2, hY2⟩
        · have hmem : e ∈ (main d fuel).1 := by rw [hsplit]; simp
          rw [hno e hmem] at htx
          exact absurd htx (by decide)
        · have hX : ∀ y ∈ setupTrace ++ [rxStart XST_SUCCESS], isTxStart y = false := by
            intro y hy
            simp only [List.mem_append, List.mem_singleton] at hy
            rcases hy with hy | rfl
            · exact (setupTrace_kinds y hy).2.1
            · rfl
          obtain ⟨hpre, _, _⟩ := split_unique isTxStart (hm2.symm.trans hsplit) hX
            (fun y hy => (hY2 y hy).2.1) htx
          rw [hpre, List.filter_append, setup_starts.2.2.1]
          rfl

/-- Witness for C9: the run against `idleDriver`. -/
theorem filter_writes_precede_start_witness :
    idleDriver.configFound = true ∧ idleDriver.initStatus = XST_SUCCESS ∧
    (main idleDriver 1).1.filter isRegWrite =
      [ Event.Xil_Out32 (IIR_BASE_ADDR + 0x00) 3,
        Event.Xil_Out32 (IIR_BASE_ADDR + 0x04) 16384,
        Event.Xil_Out32 (IIR_BASE_ADDR + 0x08) 0,
        Event.Xil_Out32 (IIR_BASE_ADDR + 0x0C) 16384,
        Event.Xil_Out32 (IIR_BASE_ADDR + 0x00) 1 ] :=
  ⟨rfl, rfl, (filter_writes_precede_start idleDriver 1 rfl rfl).1⟩

set_option maxRecDepth 100000 in
theorem fillTrace_tx_writes :
    fillTrace.filter isTxWrite =
      Event.store TX_BUFFER_BASE 0 0x27102710 ::
        (List.range 127).map (fun k => Event.store TX_BUFFER_BASE (k + 1) 0) := by
  decide

/-- C8: in every execution of `main`, (1) the cache flush of the Tx buffer covers
its full `128 * 4` bytes, comes after all 128 CPU writes to that buffer (none
follows it) and before every transfer start; (2) every transfer start has the
Tx flush before it; (3) the cache invalidate of the Rx buffer covers its full
`128 * 4` bytes and comes directly after a busy query of the transmit direction
and then one of the receive direction that both returned false; (4) every CPU
read of an Rx word has that invalidate before it; (5) every CPU write to the Tx
buffer has the Tx flush after it. -/
theorem cache_sync_ordering (d : Driver) (fuel : Nat) (pre post : List Event) (e : Event)
    (hsplit : (main d fuel).1 = pre ++ e :: post) :
    (isTxFlush e = true →
      e = Event.Xil_DCacheFlushRange TX_BUFFER_BASE (128 * 4) ∧
      pre.filter isTxWrite = Event.store TX_BUFFER_BASE 0 0x27102710 ::
        (List.range 127).map (fun k => Event.store TX_BUFFER_BASE (k + 1) 0) ∧
      (∀ y ∈ post, isTxWrite y = false) ∧
      (∀ y ∈ pre, isStart y = false)) ∧
    (isStart e = true → Event.Xil_DCacheFlushRange TX_BUFFER_BASE (128 * 4) ∈ pre) ∧
    (isRxInvalidate e = true →
      e = Event.Xil_DCacheInvalidateRange RX_BUFFER_BASE (128 * 4) ∧
      ∃ q, pre = q ++ [ Event.XAxiDma_Busy Direction.XAXIDMA_DMA_TO_DEVICE false,
                        Event.XAxiDma_Busy Direction.XAXIDMA_DEVICE_TO_DMA false ]) ∧
    (isRxRead e = true → Event.Xil_DCacheInvalidateRange RX_BUFFER_BASE (128 * 4) ∈ pre) ∧
    (isTxWrite e = true → Event.Xil_DCacheFlushRange TX_BUFFER_BASE (128 * 4) ∈ post) := by
  have hmem : e ∈ (main d fuel).1 := by rw [hsplit]; simp
  refine ⟨?_, ?_, ?_, ?_, ?_⟩
  · intro he
    rcases main_rx_split d fuel with ⟨_, hno⟩ | ⟨_, _, Y, hm, hY⟩
    · rw [(hno e hmem).2.2.2.1] at he
      exact absurd he (by decide)
    · have hm2 : (main d fuel).1 =
          fillTrace ++ flushTx :: (configTrace ++ rxStart d.rxStatus :: Y) := by
        rw [hm, setupTrace]; simp
      have hpost : ∀ y ∈ configTrace ++ rxStart d.rxStatus :: Y, isTxFlush y = false ∧
          isTxWrite y = false := by
        intro y hy
        simp only [List.mem_append, List.mem_cons] at hy
        rcases hy with hy | rfl | hy
        · have h := configTrace_kinds y hy
          exact ⟨h.2.2.2.2.1, h.2.2.2.2.2.2.2.2⟩
        · exact ⟨rfl, rfl⟩
        · exact ⟨(hY y hy).2.2.2, (hY y hy).2.2.1⟩
      obtain ⟨hpre, hee, hpo⟩ := split_unique isTxFlush (hm2.symm.trans hsplit)
        (fun y hy => (fillTrace_kinds y hy).2.2.2.2.2.1) (fun y hy => (hpost y hy).1) he
      subst hpre hee hpo
      exact ⟨rfl, fillTrace_tx_writes, fun y hy => (hpost y hy).2,
        fun y hy => (fillTrace_kinds y hy).1⟩
  · intro he
    rcases main_rx_split d fuel with ⟨_, hno⟩ | ⟨_, _, Y, hm, _⟩
    · rw [(hno e hmem).1] at he
      exact absurd he (by decide)
    · have hm2 : (main d fuel).1 =
          fillTrace ++ flushTx :: (configTrace ++ rxStart d.rxStatus :: Y) := by
        rw [hm, setupTrace]; simp
      exact split_after isStart (hm2.symm.trans hsplit)
        (fun y hy => (fillTrace_kinds y hy).1) rfl he
  · intro he
    rcases main_inspect_split d fuel with ⟨_, hno⟩ | ⟨_, q, hm, hX⟩
    · rw [(hno e hmem).1] at he
      exact absurd he (by decide)
    · have hYk : ∀ y ∈ Event.xil_printf Msg.transferComplete :: inspectSamples d.rxWord,
          isRxInvalidate y = false := by
        intro y hy
        rw [List.mem_cons] at hy
        rcases hy with rfl | hy
        · rfl
        · exact (inspectSamples_kinds d.rxWord y hy).2.2.2.2.2.2.1
      obtain ⟨hpre, hee, _⟩ := split_unique isRxInvalidate (hm.symm.trans hsplit)
        (fun y hy => (hX y hy).1) hYk he
      subst hpre hee
      refine ⟨rfl, setupTrace ++ rxStart XST_SUCCESS :: txStart XST_SUCCESS :: q, ?_⟩
      simp
  · intro he
    rcases main_inspect_split d fuel with ⟨_, hno⟩ | ⟨_, q, hm, hX⟩
    · rw [(hno e hmem).2.1] at he
      exact absurd he (by decide)
    · exact split_after isRxRead (hm.symm.trans hsplit) (fun y hy => (hX y hy).2.1) rfl he
  · intro he
    rcases main_rx_split d fuel with ⟨_, hno⟩ | ⟨_, _, Y, hm, hY⟩
    · rw [(hno e hmem).2.2.1] at he
      exact absurd he (by decide)
    · have hm2 : (main d fuel).1 =
          fillTrace ++ flushTx :: (configTrace ++ rxStart d.rxStatus :: Y) := by
        rw [hm, setupTrace]; simp
      have hpost : ∀ y ∈ configTrace ++ rxStart d.rxStatus :: Y, isTxWrite y = false := by
        intro y hy
        simp only [List.mem_append, List.mem_cons] at hy
        rcases hy with hy | rfl | hy
        · exact (configTrace_kinds y hy).2.2.2.2.2.2.2.2
        · rfl
        · exact (hY y hy).2.2.1
      exact split_before isTxWrite (hm2.symm.trans hsplit) hpost rfl he

/-- Witness for C8: the run against `idleDriver`, split at the flush of the Tx
buffer. -/
theorem cache_sync_ordering_witness :
    isTxFlush flushTx = true ∧
    flushTx = Event.Xil_DCacheFlushRange TX_BUFFER_BASE (128 * 4) ∧
    (∀ y ∈ fillTrace, isStart y = false) :=
  have h := (cache_sync_ordering idleDriver 1 fillTrace
    (configTrace ++ rxStart XST_SUCCESS :: txStart XST_SUCCESS ::
      ([ Event.XAxiDma_Busy Direction.XAXIDMA_DMA_TO_DEVICE false,
         Event.XAxiDma_Busy Direction.XAXIDMA_DEVICE_TO_DMA false ] ++
        inspectTrace idleDriver.rxWord)) flushTx
    ((congrArg Prod.fst main_idleDriver).trans (by simp [setupTrace]))).1 rfl
  ⟨rfl, h.1, h.2.2.2⟩

/-- C10: `main` ends with a non-zero status exactly when the configuration
lookup returns null, the initialization does not return `XST_SUCCESS`, or the
receive or the transmit start is refused; the status is then `XST_FAILURE`, the
run ends whatever the fuel, and no Rx word is read or reported.  A failed lookup
is followed by its diagnostic only, a failed initialization likewise (no
register write, cache range operation or transfer start in the run); a refused
receive start is followed by its diagnostic only (no transmit start); a refused
transmit start is followed by its diagnostic only.  When all four succeed the
status is never non-zero, and as soon as one evaluation of the polling
condition finds both directions not busy, `main` returns `0`. -/
theorem main_exit_status (d : Driver) :
    (∀ fuel st, (main d fuel).2 = some st →
      (st ≠ 0 ↔ (d.configFound = false ∨ d.initStatus ≠ XST_SUCCESS ∨
        d.rxStatus ≠ XST_SUCCESS ∨ d.txStatus ≠ XST_SUCCESS))) ∧
    ((d.configFound = false ∨ d.initStatus ≠ XST_SUCCESS ∨
        d.rxStatus ≠ XST_SUCCESS ∨ d.txStatus ≠ XST_SUCCESS) →
      ∀ fuel, (main d fuel).2 = some XST_FAILURE ∧ XST_FAILURE ≠ 0 ∧
        ∀ y ∈ (main d fuel).1, isRxInvalidate y = false ∧ isRxRead y = false ∧
          isSampleReport y = false) ∧
    (d.configFound = false →
      ∀ fuel, (main d fuel).1 =
        [ Event.Xil_ICacheEnable, Event.Xil_DCacheEnable, Event.xil_printf Msg.banner,
          Event.XAxiDma_LookupConfig DMA_DEV_ID false,
          Event.xil_printf Msg.errConfigNotFound ]) ∧
    (d.configFound = true → d.initStatus ≠ XST_SUCCESS →
      ∀ fuel, (main d fuel).1 =
        [ Event.Xil_ICacheEnable, Event.Xil_DCacheEnable, Event.xil_printf Msg.banner,
          Event.XAxiDma_LookupConfig DMA_DEV_ID true,
          Event.XAxiDma_CfgInitialize d.initStatus,
          Event.xil_printf Msg.errInitFailed ]) ∧
    ((d.configFound = false ∨ d.initStatus ≠ XST_SUCCESS) →
      ∀ fuel, ∀ y ∈ (main d fuel).1, isRegWrite y = false ∧ isCacheRangeOp y = false ∧
        isStart y = false) ∧
    (d.configFound = true → d.initStatus = XST_SUCCESS → d.rxStatus ≠ XST_SUCCESS →
      ∀ fuel, (main d fuel).1 =
          setupTrace ++ [rxStart d.rxStatus, Event.xil_printf Msg.errRxTransfer] ∧
        ∀ y ∈ (main d fuel).1, isTxStart y = false) ∧
    (d.configFound = true → d.initStatus = XST_SUCCESS → d.rxStatus = XST_SUCCESS →
      d.txStatus ≠ XST_SUCCESS →
      ∀ fuel, (main d fuel).1 =
        setupTrace ++ [rxStart XST_SUCCESS, txStart d.txStatus,
          Event.xil_printf Msg.errTxTransfer]) ∧
    (d.configFound = true → d.initStatus = XST_SUCCESS → d.rxStatus = XST_SUCCESS →
      d.txStatus = XST_SUCCESS →
      (∀ fuel, (main d fuel).2 = none ∨ (main d fuel).2 = some 0) ∧
      ∀ k, d.busy k Direction.XAXIDMA_DMA_TO_DEVICE = false →
        d.busy k Direction.XAXIDMA_DEVICE_TO_DMA = false →
        ∀ fuel, k < fuel → (main d fuel).2 = some 0) := by
  have hF : XST_FAILURE ≠ 0 := by decide
  refine ⟨?_, ?_, ?_, ?_, ?_, ?_, ?_, ?_⟩
  · intro fuel st hst
    rcases main_cases d fuel with ⟨h1, hm⟩ | ⟨_, h2, hm⟩ | ⟨_, _, h3, hm⟩ | ⟨_, _, _, h4, hm⟩ |
      ⟨_, _, _, _, _, hm⟩ | ⟨h1, h2, h3, h4, _, hm⟩
    · rw [hm] at hst
      simp only [Option.some.injEq] at hst
      subst hst
      exact ⟨fun _ => Or.inl h1, fun _ => hF⟩
    · rw [hm] at hst
      simp only [Option.some.injEq] at hst
      subst hst
      exact ⟨fun _ => Or.inr (Or.inl h2), fun _ => hF⟩
    · rw [hm] at hst
      simp only [Option.some.injEq] at hst
      subst hst
      exact ⟨fun _ => Or.inr (Or.inr (Or.inl h3)), fun _ => hF⟩
    · rw [hm] at hst
      simp only [Option.some.injEq] at hst
      subst hst
      exact ⟨fun _ => Or.inr (Or.inr (Or.inr h4)), fun _ => hF⟩
    · rw [hm] at hst
      simp at hst
    · rw [hm] at hst
      simp only [Option.some.injEq] at hst
      subst hst
      constructor
      · intro h; exact absurd rfl h
      · intro h
        rcases h with h | h | h | h
        · rw [h1] at h; exact absurd h (by decide)
        · exact absurd h2 h
        · exact absurd h3 h
        · exact absurd h4 h
  · intro hfail fuel
    rcases main_inspect_split d fuel with ⟨_, hno⟩ | ⟨h0, _⟩
    · refine ⟨?_, hF, hno⟩
      rcases main_cases d fuel with ⟨_, hm⟩ | ⟨_, _, hm⟩ | ⟨_, _, _, hm⟩ | ⟨_, _, _, _, hm⟩ |
        ⟨h1, h2, h3, h4, _, _⟩ | ⟨h1, h2, h3, h4, _, _⟩
      · rw [hm]
      · rw [hm]
      · rw [hm]
      · rw [hm]
      · rcases hfail with h | h | h | h
        · rw [h1] at h; exact absurd h (by decide)
        · exact absurd h2 h
        · exact absurd h3 h
        · exact absurd h4 h
      · rcases hfail with h | h | h | h
        · rw [h1] at h; exact absurd h (by decide)
        · exact absurd h2 h
        · exact absurd h3 h
        · exact absurd h4 h
    · rcases main_cases d fuel with ⟨_, hm⟩ | ⟨_, _, hm⟩ | ⟨_, _, _, hm⟩ | ⟨_, _, _, _, hm⟩ |
        ⟨_, _, _, _, _, hm⟩ | ⟨h1, h2, h3, h4, _, _⟩
      · rw [hm] at h0; simp [XST_FAILURE] at h0
      · rw [hm] at h0; simp [XST_FAILURE] at h0
      · rw [hm] at h0; simp [XST_FAILURE] at h0
      · rw [hm] at h0; simp [XST_FAILURE] at h0
      · rw [hm] at h0; simp at h0
      · rcases hfail with h | h | h | h
        · rw [h1] at h; exact absurd h (by decide)
        · exact absurd h2 h
        · exact absurd h3 h
        · exact absurd h4 h
  · intro h1 fuel
    rcases main_cases d fuel with ⟨_, hm⟩ | ⟨g, _⟩ | ⟨g, _⟩ | ⟨g, _⟩ | ⟨g, _⟩ | ⟨g, _⟩
    · rw [hm]; rfl
    all_goals (rw [h1] at g; exact absurd g (by decide))
  · intro h1 h2 fuel
    rcases main_cases d fuel with ⟨g, _⟩ | ⟨_, _, hm⟩ | ⟨_, g, _⟩ | ⟨_, g, _⟩ | ⟨_, g, _⟩ |
      ⟨_, g, _⟩
    · rw [h1] at g; exact absurd g (by decide)
    · rw [hm]; rfl
    all_goals exact absurd g h2
  · intro hfail fuel y hy
    rcases main_rx_split d fuel with ⟨_, hno⟩ | ⟨h1, h2, _⟩
    · have h := hno y hy
      exact ⟨h.2.1, h.2.2.2.2, h.1⟩
    · rcases hfail with h | h
      · rw [h1] at h; exact absurd h (by decide)
      · exact absurd h2 h
  · intro h1 h2 h3 fuel
    have hm : (main d fuel).1 =
        setupTrace ++ [rxStart d.rxStatus, Event.xil_printf Msg.errRxTransfer] := by
      rcases main_cases d fuel with ⟨g, _⟩ | ⟨_, g, _⟩ | ⟨_, _, _, hm⟩ | ⟨_, _, g, _⟩ |
        ⟨_, _, g, _⟩ | ⟨_, _, g, _⟩
      · rw [h1] at g; exact absurd g (by decide)
      · exact absurd h2 g
      · rw [hm]
      all_goals exact absurd g h3
    refine ⟨hm, ?_⟩
    intro y hy
    rw [hm] at hy
    simp only [List.mem_append, List.mem_cons, List.mem_singleton, List.not_mem_nil,
      or_false] at hy
    rcases hy with hy | rfl | rfl
    · exact (setupTrace_kinds y hy).2.1
    · rfl
    · rfl
  · intro h1 h2 h3 h4 fuel
    rcases main_cases d fuel with ⟨g, _⟩ | ⟨_, g, _⟩ | ⟨_, _, g, _⟩ | ⟨_, _, _, _, hm⟩ |
      ⟨_, _, _, g, _⟩ | ⟨_, _, _, g, _⟩
    · rw [h1] at g; exact absurd g (by decide)
    · exact absurd h2 g
    · exact absurd h3 g
    · rw [hm]; simp
    all_goals exact absurd g h4
  · intro h1 h2 h3 h4
    have hcases : ∀ fuel, ((pollLoop d.busy fuel 0).2 = false ∧ (main d fuel).2 = none) ∨
        ((pollLoop d.busy fuel 0).2 = true ∧ (main d fuel).2 = some 0) := by
      intro fuel
      rcases main_cases d fuel with ⟨g, _⟩ | ⟨_, g, _⟩ | ⟨_, _, g, _⟩ | ⟨_, _, _, g, _⟩ |
        ⟨_, _, _, _, h5, hm⟩ | ⟨_, _, _, _, h5, hm⟩
      · rw [h1] at g; exact absurd g (by decide)
      · exact absurd h2 g
      · exact absurd h3 g
      · exact absurd h4 g
      · left; exact ⟨h5, by rw [hm]⟩
      · right; exact ⟨h5, by rw [hm]⟩
    constructor
    · intro fuel
      rcases hcases fuel with ⟨_, h⟩ | ⟨_, h⟩
      · exact Or.inl h
      · exact Or.inr h
    · intro k hk1 hk2 fuel hf
      have hdone := pollLoop_terminates d.busy k hk1 hk2 fuel 0 (Nat.zero_le k) (by omega)
      rcases hcases fuel with ⟨h5, _⟩ | ⟨_, h⟩
      · rw [hdone] at h5; exact absurd h5 (by decide)
      · exact h

/-- Witness for C10: against `absentDriver` the run ends with `XST_FAILURE`
right after the lookup; against `idleDriver` it returns `0`. -/
theorem main_exit_status_witness :
    absentDriver.configFound = false ∧
    (main absentDriver 0).1 =
      [ Event.Xil_ICacheEnable, Event.Xil_DCacheEnable, Event.xil_printf Msg.banner,
        Event.XAxiDma_LookupConfig DMA_DEV_ID false,
        Event.xil_printf Msg.errConfigNotFound ] ∧
    (main absentDriver 0).2 = some XST_FAILURE ∧
    (main idleDriver 1).2 = some 0 :=
  ⟨rfl, (main_exit_status absentDriver).2.2.1 rfl 0,
    ((main_exit_status absentDriver).2.1 (Or.inl rfl) 0).1,
    ((main_exit_status idleDriver).2.2.2.2.2.2.2 rfl rfl rfl rfl).2 0 rfl rfl 1 (by decide)⟩

end IIR
